import Mathlib

/-!
Verification of the notification session manager implemented in
`src/main.py`, `src/notification_window.py` and `src/noitifcation_parser.py`.

The daemon is a single-threaded GTK/D-Bus state machine.  Its authoritative
state consists of

* a process-wide id counter (`Notifications._counter`),
* the insertion-ordered table of live notification windows
  (`Notifications._nots`, a Python dict keyed by id; each value is a GTK
  window carrying its `NotificationParser` record, its size `_width`/`_height`
  and its vertical screen position `screen_pos`),
* the set of armed GLib one-shot timers (armed in `Notify`, never cancelled,
  self-disarming on fire), and
* the trace of outputs: the D-Bus signals `NotificationClosed` /
  `ActionInvoked` and the best-effort external interactions issued by the
  action router (window focusing, key injection, `code --goto`).

The embedding below models the table as an insertion-ordered list of windows
(a Python dict preserves insertion order; keys are unique and every key
equals `window.notification.id`, since `Notify` stores `win` under
`self._counter`, the very id given to the parser).  Signals and external
interactions are recorded in one ordered trace.  Rendering (WebKit HTML,
icons, GTK margin updates) is out of core scope and not modelled; the
window-manager interaction of the router is modelled as the sequence of
attempts it issues (`Effect`), each attempt being externally fallible.

The configuration constants `NOTIFICATION_PADDING` and
`SCREEN_HEIGHT_THRESHOLD` come from `const.py`, which is not part of the
sources; modelled from the spec: "inter-notification padding (display units)
and screen-height threshold (display units) — fixed at process start".  They
appear as parameters `P` and `T` throughout.

String operations are re-implemented on `List Char` with structural
recursion so that the kernel can evaluate them inside `decide`/`rfl`
proofs; each mirrors the Python primitive named in its doc comment
(restricted to the exact usage sites of the source, which are ASCII plus
U+200E).
-/

namespace NotifDaemon

/-! ### Python string primitives -/

/-- Is the first list a prefix of the second? -/
def hasPrefixCh : List Char → List Char → Bool
  | [], _ => true
  | _ :: _, [] => false
  | a :: as, b :: bs => a == b && hasPrefixCh as bs

/-- Does `needle` occur as a contiguous sublist of the second list? -/
def containsSub (needle : List Char) : List Char → Bool
  | [] => hasPrefixCh needle []
  | c :: cs => hasPrefixCh needle (c :: cs) || containsSub needle cs

/-- Python `needle in hay` (substring test; the empty needle is always found). -/
def pyIn (needle hay : String) : Bool := containsSub needle.data hay.data

/-- Split worker.  `fuel` only encodes termination: every recursive call
strictly shrinks the subject list, so `fuel = length + 1` is never exhausted. -/
def splitChFuel (sep : List Char) : Nat → List Char → List Char → List (List Char)
  | 0, rest, acc => [acc.reverse ++ rest]
  | Nat.succ fuel, s, acc =>
    match s with
    | [] => [acc.reverse]
    | c :: cs =>
      if hasPrefixCh sep (c :: cs) then
        acc.reverse :: splitChFuel sep fuel (List.drop sep.length (c :: cs)) []
      else
        splitChFuel sep fuel cs (c :: acc)

/-- Python `s.split(sep)` for a nonempty separator. -/
def pySplit (s sep : String) : List String :=
  (splitChFuel sep.data (s.data.length + 1) s.data []).map String.mk

/-- Python `s[k:]`. -/
def pyDropStr (s : String) (k : Nat) : String := String.mk (s.data.drop k)

/-- Python `len(s)`. -/
def pyLen (s : String) : Nat := s.data.length

/-- Python `s.strip()`. -/
def pyStrip (s : String) : String :=
  String.mk (((s.data.dropWhile Char.isWhitespace).reverse.dropWhile
    Char.isWhitespace).reverse)

/-- Python `s.lower()` (the source only lowercases ASCII app names/bodies). -/
def pyLower (s : String) : String := String.mk (s.data.map Char.toLower)

/-! ### Outputs: D-Bus signals and external best-effort interactions -/

/-- The two D-Bus signals of the `Notifications` service interface. -/
inductive Event where
  | notificationClosed (id reason : Nat)
  | actionInvoked (id : Nat) (actionKey : String)
  deriving DecidableEq

/-- External interactions attempted by the action router:
`_focus_application_window(app)` (Hyprland query + focus dispatch, with a
launch fallback), `_send_hyprland_keys(keys)`, and the `code --goto path`
subprocess of `_handle_code_app_action`.  Each is advisory and fallible. -/
inductive Effect where
  | focusApp (appName : String)
  | sendKeys (keys : List String)
  | codeGoto (filePath : String)
  deriving DecidableEq

/-- One entry of the observable trace: a signal or an external interaction. -/
inductive Item where
  | sig (e : Event)
  | ext (f : Effect)
  deriving DecidableEq

/-- `ClosedReason.expired = 1` in the source. -/
def reasonExpired : Nat := 1
/-- `ClosedReason.dismissed = 2` in the source. -/
def reasonDismissed : Nat := 2
/-- `ClosedReason.method = 3` in the source (never used by any call site). -/
def reasonByProgram : Nat := 3

/-! ### The notification record (`NotificationParser`) -/

structure NotificationRecord where
  id : Nat
  app_name : String
  replaces_id : Nat
  app_icon : String
  title : String
  subtitle : Option String
  body : String
  actions : List String
  expire_timeout : Int
  replaceable : Bool
  deriving DecidableEq

/-- The `elecwhat` branch of `NotificationParser.parse_content`: strips
`len(app_name) + 3` characters from the title and, when the body contains
U+200E, takes `body.split(": ")[0]` as subtitle and `body.split("‎:")[1]`
as new body.  `none` models the `IndexError` the source raises when the body
contains U+200E but not "U+200E:" (index 1 does not exist). -/
def parseContentElecwhat (app_name title body : String) :
    Option (String × Option String × String) :=
  if app_name == "elecwhat" then
    let title1 := pyDropStr title (pyLen app_name + 3)
    if (pySplit body "‎").length > 1 then
      match (pySplit body "‎:").get? 1 with
      | none => none
      | some b1 => some (title1, some ((pySplit body ": ").headD ""), b1)
    else some (title1, none, body)
  else some (title, none, body)

/-- `NotificationParser.parse_content`: the `elecwhat` branch followed by the
generic "app name inside title" strip (Python's `in`, so an empty app name
always matches). -/
def parseContent (app_name title body : String) :
    Option (String × Option String × String) :=
  match parseContentElecwhat app_name title body with
  | none => none
  | some (t, s, b) =>
    if pyIn app_name t then some (pyDropStr t (pyLen app_name + 3), s, b)
    else some (t, s, b)

/-- `NotificationParser.__init__` followed by `parse_content`.  `Notify` never
passes `replaceable` or `expire_timeout`, so the defaults (`False`, `5000`)
always apply — the model therefore fixes them.  `parse_image` only computes
the rendered icon payload (`self.img`), which the core never interprets and
which is out of model scope. -/
def NotificationRecord.make (id : Nat) (app_name : String) (replaces_id : Nat)
    (app_icon summary body : String) (actions : List String) :
    Option NotificationRecord :=
  match parseContent app_name summary body with
  | none => none
  | some (t, s, b) =>
    some { id, app_name, replaces_id, app_icon, title := t, subtitle := s,
           body := b, actions, expire_timeout := 5000, replaceable := false }

/-! ### The notification window -/

structure Window where
  notification : NotificationRecord
  width : Nat
  height : Nat
  screen_pos : Nat
  deriving DecidableEq

/-- The id of the record a window carries (`window.notification.id`, which is
also the window's key in `self._nots`). -/
def Window.nid (w : Window) : Nat := w.notification.id

/-- `create_notification_window` + `_setup_layer_shell_properties`:
`_width = 320`, `_height = 100`, `screen_pos = NOTIFICATION_PADDING` (the
default argument of `_setup_layer_shell_properties`). -/
def createNotificationWindow (n : NotificationRecord) (P : Nat) : Window :=
  { notification := n, width := 320, height := 100, screen_pos := P }

/-! ### The daemon state -/

structure NState where
  counter : Nat
  nots : List Window
  timers : List (Nat × Int)
  trace : List Item
  deriving DecidableEq

/-- Fresh service state: `_counter = 0`, `_nots = {}`, no timers, no output. -/
def initState : NState := { counter := 0, nots := [], timers := [], trace := [] }

/-- `id in self._nots`. -/
def live (st : NState) (id : Nat) : Bool := st.nots.any (fun w => w.nid == id)

/-- Does a trace item report `NotificationClosed` for this id (any reason)? -/
def isClosedEventFor (id : Nat) : Item → Bool
  | .sig (.notificationClosed i _) => i == id
  | _ => false

/-- How many `NotificationClosed` signals for `id` a trace contains. -/
def closedCount (id : Nat) (tr : List Item) : Nat := tr.countP (isClosedEventFor id)

/-- The `NotificationClosed` / `ActionInvoked` signals of a trace, in order. -/
def sigsOf (tr : List Item) : List Event :=
  tr.filterMap (fun it => match it with | .sig e => some e | .ext _ => none)

/-! ### Closing paths -/

/-- `Notifications._close_window(window, notification)`: destroy the GTK
window (external, unmodelled), then, if the id is still in the table, remove
it and emit `NotificationClosed(id, ClosedReason.expired)`. -/
def closeWindow (st : NState) (id : Nat) : NState :=
  if live st id then
    { st with nots := st.nots.filter (fun w => w.nid != id),
              trace := st.trace ++ [Item.sig (Event.notificationClosed id reasonExpired)] }
  else st

/-- `Notifications._close_window_by_id(notification_id, reason)`: if the id is
in the table, destroy the window, remove it and emit
`NotificationClosed(id, reason)`; otherwise do nothing. -/
def closeWindowById (st : NState) (id reason : Nat) : NState :=
  if live st id then
    { st with nots := st.nots.filter (fun w => w.nid != id),
              trace := st.trace ++ [Item.sig (Event.notificationClosed id reason)] }
  else st

/-- `Notifications.CloseNotification(id, by_program)`: look the id up and,
only when it is present and `by_program is True`, delete the table entry.
Nothing else happens: no signal, no timer cancellation, no window destroy. -/
def closeNotificationOp (st : NState) (id : Nat) (by_program : Bool) : NState :=
  if live st id && by_program then
    { st with nots := st.nots.filter (fun w => w.nid != id) }
  else st

/-- A GLib timer armed by `Notify` firing: the one-shot timer disarms itself
(the lambda returns `False` via `_close_window`) and runs
`_close_window(win, notification)` for the captured window.  Firing is only
possible while the timer is armed. -/
def timerFireOp (st : NState) (id : Nat) : NState :=
  if st.timers.any (fun t => t.1 == id) then
    closeWindow { st with timers := st.timers.filter (fun t => t.1 != id) } id
  else st

/-! ### The action router -/

/-- `\w` of `re` (ASCII range, the only one exercised by the source). -/
def isWordCh (c : Char) : Bool := c.isAlphanum || c == '_'

/-- The character class `[/\w.-]` of `_handle_code_app_action`'s pattern. -/
def isClsCh (c : Char) : Bool := isWordCh c || c == '/' || c == '.' || c == '-'

/-- Largest `k ≥ 1` such that the run has `'.'` at `k` followed by a word
character: the backtracking point of the greedy `[/\w.-]+` before `\.\w+`. -/
def dotIndexCh (r : List Char) : Option Nat :=
  (List.range r.length).reverse.find? (fun k =>
    decide (1 ≤ k) && (r.get? k == some '.')
      && ((r.get? (k + 1)).map isWordCh).getD false)

/-- Match of `([/\w.-]+\.\w+)` anchored at the head of the list, following
Python's leftmost-greedy backtracking: the class run is consumed greedily,
backtracks to the last `'.'` that is followed by a word character, then
`\w+` consumes greedily. -/
def matchAtCh (s : List Char) : Option (List Char) :=
  let r := s.takeWhile isClsCh
  match dotIndexCh r with
  | none => none
  | some k => some (r.take (k + 1) ++ (r.drop (k + 1)).takeWhile isWordCh)

/-- `re.search` scan: try every start position left to right. -/
def reSearchFileCh : List Char → Option (List Char)
  | [] => none
  | c :: cs =>
    match matchAtCh (c :: cs) with
    | some m => some m
    | none => reSearchFileCh cs

/-- `re.search(r"([/\w.-]+\.\w+)", s)` of `_handle_code_app_action`. -/
def reSearchFile (s : String) : Option String :=
  (reSearchFileCh s.data).map String.mk

/-- The `chat_info["chat_name"]` derivation of `_extract_chat_info` when the
subtitle path does not apply: `title.split(":")[0].strip()` when the title
contains a colon, otherwise the key is absent. -/
def chatNameFromTitle (n : NotificationRecord) : Option String :=
  if pyIn ":" n.title then some (pyStrip ((pySplit n.title ":").headD ""))
  else none

/-- `_extract_chat_info`, reduced to the derived `chat_name`: a truthy
(nonempty) subtitle wins, else the portion of the title before the first
colon; `none` when the dict gets no `chat_name` key. -/
def extractChatInfo (n : NotificationRecord) : Option String :=
  match n.subtitle with
  | some s => if s != "" then some (pyStrip s) else chatNameFromTitle n
  | none => chatNameFromTitle n

/-- `_handle_discord_action`: Ctrl+K via Hyprland, but only for "reply"
(the derived chat name is only printed). -/
def handleDiscordAction (chatName : Option String) (action_key : String) :
    List Effect :=
  if action_key == "reply" then [Effect.sendKeys ["CTRL", "K"]] else []

/-- `_handle_messaging_app_action` (telegram / whatsapp): Ctrl+F, but only
for "reply". -/
def handleMessagingAppAction (app_name : String) (chatName : Option String)
    (action_key : String) : List Effect :=
  if action_key == "reply" then [Effect.sendKeys ["CTRL", "F"]] else []

/-- `_handle_chat_app_action`: always focus the app window first; for the
keys reply/open/show derive the chat info and dispatch per app. -/
def handleChatAppAction (n : NotificationRecord) (action_key : String) :
    List Effect :=
  let app := pyLower n.app_name
  Effect.focusApp app ::
    (if ["reply", "open", "show"].contains action_key then
      (if app == "discord" then handleDiscordAction (extractChatInfo n) action_key
       else if app == "telegram" || app == "whatsapp" then
         handleMessagingAppAction app (extractChatInfo n) action_key
       else [])
     else [])

/-- `_handle_email_app_action`: focus only. -/
def handleEmailAppAction (n : NotificationRecord) (action_key : String) :
    List Effect :=
  [Effect.focusApp (pyLower n.app_name)]

/-- `_handle_code_app_action`: focus "code"; for "open" with "error" in the
lowercased body, run `code --goto` on the first file-path-like token. -/
def handleCodeAppAction (n : NotificationRecord) (action_key : String) :
    List Effect :=
  Effect.focusApp "code" ::
    (if action_key == "open" && pyIn "error" (pyLower n.body) then
      match reSearchFile n.body with
      | some p => [Effect.codeGoto p]
      | none => []
     else [])

/-- `_handle_notification_action`'s dispatch on the lowercased app name
(first match wins), giving the sequence of external interactions the router
attempts when none of them raises. -/
def routeEffects (n : NotificationRecord) (action_key : String) : List Effect :=
  let app := pyLower n.app_name
  if ["discord", "element", "telegram", "whatsapp", "signal"].contains app then
    handleChatAppAction n action_key
  else if ["thunderbird", "evolution", "geary"].contains app then
    handleEmailAppAction n action_key
  else if ["code", "visual studio code", "vscode"].contains app then
    handleCodeAppAction n action_key
  else [Effect.focusApp app]

/-- `Notifications._on_action_invoked(notification_id, action_key)`: look the
window up (every modelled window has its `notification` attribute); if absent
return; else run the router, emit `ActionInvoked`, then close with reason
`dismissed`.  `cut` models the `try/except` of `_handle_notification_action`:
an exception escaping from one of the router's external interactions aborts
the remaining ones (`cut` = how many completed) and is swallowed, so the
signal/close sequence is unaffected. -/
def onActionInvoked (st : NState) (notification_id : Nat) (action_key : String)
    (cut : Nat) : NState :=
  match st.nots.find? (fun w => w.nid == notification_id) with
  | none => st
  | some w =>
    let effs := (routeEffects w.notification action_key).take cut
    let st1 := { st with trace := st.trace ++ effs.map Item.ext
        ++ [Item.sig (Event.actionInvoked notification_id action_key)] }
    closeWindowById st1 notification_id reasonDismissed

/-! ### Notify -/

/-- The per-window mutation of the loop in `Notify`:
`notf.screen_pos = notf.screen_pos + notf._height + NOTIFICATION_PADDING`. -/
def pushW (P : Nat) (w : Window) : Window :=
  { w with screen_pos := w.screen_pos + w.height + P }

/-- Does the pushed window stay on screen
(`notf.screen_pos < SCREEN_HEIGHT_THRESHOLD`)? -/
def keepW (P T : Nat) (w : Window) : Bool := (pushW P w).screen_pos < T

/-- The `for notf in list(self._nots.values())` loop of `Notify`: each
existing window is pushed down by its own height plus the padding; windows
still under the threshold get their margin updated (external GTK call,
unmodelled), the others are closed via `_close_window`, which removes them
and emits `NotificationClosed(id, expired)`.  The iteration runs over a copy
of the dict values, so the in-loop deletions are safe; the membership test
inside `_close_window` is always true here, because dict keys are unique and
each value is visited exactly once. -/
def restack (P T : Nat) : List Window → List Window × List Item
  | [] => ([], [])
  | w :: ws =>
    let w1 := pushW P w
    let r := restack P T ws
    if w1.screen_pos < T then (w1 :: r.1, r.2)
    else (r.1, Item.sig (Event.notificationClosed w.nid reasonExpired) :: r.2)

/-- `Notifications.Notify`: bump the counter, build the record (the requested
`expire_timeout` is NOT forwarded to the parser), create the window, run the
push-down loop over the existing windows, append the new window to the table,
and arm a GLib timer for `notification.expire_timeout` (always the 5000 ms
default) milliseconds.  Returns the new id.  `none` models the parser raising
(elecwhat `IndexError`), which happens after the counter bump and before any
table/timer mutation. -/
def notifyOp (P T : Nat) (st : NState) (app_name : String) (replaces_id : Nat)
    (app_icon summary body : String) (actions : List String)
    (expire_timeout : Int) : NState × Option Nat :=
  let c := st.counter + 1
  match NotificationRecord.make c app_name replaces_id app_icon summary body actions with
  | none => ({ st with counter := c }, none)
  | some n =>
    let win := createNotificationWindow n P
    let r := restack P T st.nots
    ({ counter := c,
       nots := r.1 ++ [win],
       timers := st.timers ++ [(c, n.expire_timeout)],
       trace := st.trace ++ r.2 }, some c)

/-! ### Window resizing callbacks -/

/-- `_on_js_dimensions_result` (success path): clamp the DOM size to minima
200×50 and add 2. -/
def resizeOp (st : NState) (id cw ch : Nat) : NState :=
  { st with nots := st.nots.map (fun w =>
      if w.nid == id then { w with width := max cw 200 + 2, height := max ch 50 + 2 }
      else w) }

/-- `_on_js_dimensions_result` (exception path): fall back to 320×80. -/
def resizeFallbackOp (st : NState) (id : Nat) : NState :=
  { st with nots := st.nots.map (fun w =>
      if w.nid == id then { w with width := 320, height := 80 } else w) }

/-! ### Event-loop steps and runs -/

/-- One event processed by the single-threaded loop: an inbound `Notify` or
`CloseNotification` call, a timer firing, a user action callback, or a
WebView resize callback. -/
inductive Op where
  | notify (app_name : String) (replaces_id : Nat) (app_icon summary body : String)
      (actions : List String) (expire_timeout : Int)
  | close (id : Nat) (by_program : Bool)
  | timerFire (id : Nat)
  | action (id : Nat) (action_key : String) (cut : Nat)
  | resize (id cw ch : Nat)
  | resizeFallback (id : Nat)
  deriving DecidableEq

def step (P T : Nat) (st : NState) : Op → NState
  | .notify a r i s b acts e => (notifyOp P T st a r i s b acts e).1
  | .close id bp => closeNotificationOp st id bp
  | .timerFire id => timerFireOp st id
  | .action id k cut => onActionInvoked st id k cut
  | .resize id cw ch => resizeOp st id cw ch
  | .resizeFallback id => resizeFallbackOp st id

/-- The state after a sequence of events, from a fresh service. -/
def run (P T : Nat) (ops : List Op) : NState := ops.foldl (step P T) initState

/-- The ids returned by the `Notify` calls of a run, in call order (a call in
which the parser raises returns no id). -/
def runIds (P T : Nat) (st : NState) : List Op → List Nat
  | [] => []
  | op :: ops =>
    (match op with
     | .notify a r i s b acts e =>
       (match (notifyOp P T st a r i s b acts e).2 with
        | some id => [id]
        | none => [])
     | _ => []) ++ runIds P T (step P T st op) ops

/-- The stack-offset formula asserted by the spec (claim C3), stated from the
spec's words for comparison with the code's behaviour: top padding plus the
sum of (surface height + padding) over the still-visible records inserted
earlier. -/
def specStackOffset (P : Nat) (earlier : List Window) : Nat :=
  P + (earlier.map (fun w => w.height + P)).sum

/-! ### Basic lemmas about traces and windows -/

theorem pushW_nid (P : Nat) (w : Window) : (pushW P w).nid = w.nid := rfl

theorem closedCount_append (id : Nat) (a b : List Item) :
    closedCount id (a ++ b) = closedCount id a + closedCount id b := by
  simp [closedCount, List.countP_append]

theorem closedCount_cons (id : Nat) (it : Item) (tr : List Item) :
    closedCount id (it :: tr)
      = closedCount id tr + (if isClosedEventFor id it then 1 else 0) := by
  simp [closedCount, List.countP_cons]

theorem closedCount_closed_self (id r : Nat) :
    closedCount id [Item.sig (Event.notificationClosed id r)] = 1 := by
  simp [closedCount, List.countP_cons, isClosedEventFor]

theorem closedCount_closed_ne (id i r : Nat) (h : i ≠ id) :
    closedCount id [Item.sig (Event.notificationClosed i r)] = 0 := by
  simp [closedCount, List.countP_cons, isClosedEventFor, h]

theorem closedCount_action_item (id i : Nat) (k : String) :
    closedCount id [Item.sig (Event.actionInvoked i k)] = 0 := by
  simp [closedCount, List.countP_cons, isClosedEventFor]

theorem closedCount_ext (id : Nat) (fs : List Effect) :
    closedCount id (fs.map Item.ext) = 0 := by
  induction fs with
  | nil => rfl
  | cons f fs ih =>
    simp only [List.map_cons, closedCount, List.countP_cons, isClosedEventFor]
    simpa [closedCount] using ih

theorem live_iff (st : NState) (id : Nat) :
    live st id = true ↔ ∃ w ∈ st.nots, w.nid = id := by
  simp [live, List.any_eq_true]

/-! ### Characterization of the `Notify` push-down loop -/

theorem restack_fst_eq (P T : Nat) (ws : List Window) :
    (restack P T ws).1
      = ws.filterMap (fun w => if keepW P T w then some (pushW P w) else none) := by
  induction ws with
  | nil => rfl
  | cons w ws ih =>
    by_cases h : (pushW P w).screen_pos < T
    · simp [restack, keepW, h, ih]
    · simp [restack, keepW, h, ih]

theorem restack_snd_eq (P T : Nat) (ws : List Window) :
    (restack P T ws).2
      = ws.filterMap (fun w =>
          if keepW P T w then none
          else some (Item.sig (Event.notificationClosed w.nid reasonExpired))) := by
  induction ws with
  | nil => rfl
  | cons w ws ih =>
    by_cases h : (pushW P w).screen_pos < T
    · simp [restack, keepW, h, ih]
    · simp [restack, keepW, h, ih]

theorem restack_count_zero (P T id : Nat) (ws : List Window)
    (h : ∀ w ∈ ws, w.nid ≠ id) : closedCount id (restack P T ws).2 = 0 := by
  induction ws with
  | nil => rfl
  | cons w ws ih =>
    have hw := h w (List.mem_cons_self w ws)
    have ih' := ih (fun v hv => h v (List.mem_cons_of_mem _ hv))
    by_cases hk : (pushW P w).screen_pos < T
    · simpa [restack, hk] using ih'
    · simpa [restack, hk, closedCount, List.countP_cons, isClosedEventFor, hw]
        using ih'

theorem restack_count_le (P T id : Nat) (ws : List Window)
    (h : (ws.map Window.nid).Nodup) : closedCount id (restack P T ws).2 ≤ 1 := by
  induction ws with
  | nil => exact Nat.zero_le 1
  | cons w ws ih =>
    rw [List.map_cons, List.nodup_cons] at h
    by_cases hk : (pushW P w).screen_pos < T
    · simpa [restack, hk] using ih h.2
    · have hsnd : (restack P T (w :: ws)).2
          = Item.sig (Event.notificationClosed w.nid reasonExpired)
            :: (restack P T ws).2 := by
        simp [restack, hk]
      rw [hsnd, closedCount_cons]
      by_cases hid : w.nid = id
      · subst hid
        have hz : closedCount w.nid (restack P T ws).2 = 0 :=
          restack_count_zero P T w.nid ws
            (fun v hv hev => h.1 (hev ▸ List.mem_map.2 ⟨v, hv, rfl⟩))
        simp [hz, isClosedEventFor]
      · have : isClosedEventFor id
            (Item.sig (Event.notificationClosed w.nid reasonExpired)) = false := by
          simp [isClosedEventFor, hid]
        rw [this]
        simpa using ih h.2

theorem restack_count_one (P T : Nat) (ws : List Window) (w : Window)
    (h : (ws.map Window.nid).Nodup) (hw : w ∈ ws)
    (hk : ¬ (pushW P w).screen_pos < T) :
    closedCount w.nid (restack P T ws).2 = 1 := by
  induction ws with
  | nil => cases hw
  | cons v ws ih =>
    rw [List.map_cons, List.nodup_cons] at h
    rcases List.mem_cons.1 hw with hv | hv
    · subst hv
      have hz : closedCount w.nid (restack P T ws).2 = 0 :=
        restack_count_zero P T w.nid ws
          (fun u hu heu => h.1 (heu ▸ List.mem_map.2 ⟨u, hu, rfl⟩))
      have hsnd : (restack P T (w :: ws)).2
          = Item.sig (Event.notificationClosed w.nid reasonExpired)
            :: (restack P T ws).2 := by
        simp [restack, hk]
      rw [hsnd, closedCount_cons, hz]
      simp [isClosedEventFor]
    · have hne : v.nid ≠ w.nid := by
        intro he
        exact h.1 (he ▸ List.mem_map.2 ⟨w, hv, rfl⟩)
      by_cases hkv : (pushW P v).screen_pos < T
      · simpa [restack, hkv] using ih h.2 hv
      · have hsnd : (restack P T (v :: ws)).2
            = Item.sig (Event.notificationClosed v.nid reasonExpired)
              :: (restack P T ws).2 := by
          simp [restack, hkv]
        rw [hsnd, closedCount_cons]
        have : isClosedEventFor w.nid
            (Item.sig (Event.notificationClosed v.nid reasonExpired)) = false := by
          simp [isClosedEventFor, hne]
        rw [this]
        simpa using ih h.2 hv

theorem restack_count_keep_zero (P T : Nat) (ws : List Window) (w : Window)
    (h : (ws.map Window.nid).Nodup) (hw : w ∈ ws)
    (hk : (pushW P w).screen_pos < T) :
    closedCount w.nid (restack P T ws).2 = 0 := by
  induction ws with
  | nil => cases hw
  | cons v ws ih =>
    rw [List.map_cons, List.nodup_cons] at h
    rcases List.mem_cons.1 hw with hv | hv
    · subst hv
      have hz : closedCount w.nid (restack P T ws).2 = 0 :=
        restack_count_zero P T w.nid ws
          (fun u hu heu => h.1 (heu ▸ List.mem_map.2 ⟨u, hu, rfl⟩))
      simpa [restack, hk] using hz
    · have hne : v.nid ≠ w.nid := fun he => h.1 (he ▸ List.mem_map.2 ⟨w, hv, rfl⟩)
      by_cases hkv : (pushW P v).screen_pos < T
      · simpa [restack, hkv] using ih h.2 hv
      · simpa [restack, hkv, closedCount, List.countP_cons, isClosedEventFor, hne]
          using ih h.2 hv

theorem restack_mem_of_keep (P T : Nat) (ws : List Window) (w : Window)
    (hw : w ∈ ws) (hk : keepW P T w = true) :
    pushW P w ∈ (restack P T ws).1 := by
  rw [restack_fst_eq]
  exact List.mem_filterMap.2 ⟨w, hw, by simp [hk]⟩

theorem restack_src (P T : Nat) (ws : List Window) (v : Window)
    (hv : v ∈ (restack P T ws).1) :
    ∃ u ∈ ws, keepW P T u = true ∧ v = pushW P u := by
  rw [restack_fst_eq] at hv
  rcases List.mem_filterMap.1 hv with ⟨u, hu, he⟩
  by_cases hk : keepW P T u = true
  · rw [if_pos hk] at he
    exact ⟨u, hu, hk, (Option.some.injEq _ _ ▸ he).symm⟩
  · rw [if_neg hk] at he
    cases he

theorem restack_nid_mem (P T : Nat) (ws : List Window) (v : Window)
    (hv : v ∈ (restack P T ws).1) : v.nid ∈ ws.map Window.nid := by
  rcases restack_src P T ws v hv with ⟨u, hu, -, he⟩
  exact List.mem_map.2 ⟨u, hu, by rw [he, pushW_nid]⟩

theorem restack_not_live (P T : Nat) (ws : List Window) (w : Window)
    (h : (ws.map Window.nid).Nodup) (hw : w ∈ ws)
    (hk : ¬ (pushW P w).screen_pos < T) :
    ∀ v ∈ (restack P T ws).1, v.nid ≠ w.nid := by
  intro v hv he
  rcases restack_src P T ws v hv with ⟨u, hu, hku, hvu⟩
  have hun : u.nid = w.nid := by rw [← pushW_nid P u, ← hvu, he]
  have : u = w := List.inj_on_of_nodup_map h hu hw hun
  subst this
  exact hk (by simpa [keepW] using hku)

theorem restack_nodup (P T : Nat) (ws : List Window)
    (h : (ws.map Window.nid).Nodup) :
    ((restack P T ws).1.map Window.nid).Nodup := by
  induction ws with
  | nil => simp [restack]
  | cons w ws ih =>
    rw [List.map_cons, List.nodup_cons] at h
    by_cases hk : (pushW P w).screen_pos < T
    · have : (restack P T (w :: ws)).1 = pushW P w :: (restack P T ws).1 := by
        simp [restack, hk]
      rw [this, List.map_cons, List.nodup_cons, pushW_nid]
      refine ⟨fun hmem => ?_, ih h.2⟩
      rcases List.mem_map.1 hmem with ⟨v, hv, hvn⟩
      exact h.1 (hvn ▸ restack_nid_mem P T ws v hv)
    · have : (restack P T (w :: ws)).1 = (restack P T ws).1 := by
        simp [restack, hk]
      rw [this]
      exact ih h.2

theorem restack_event_mem (P T : Nat) (ws : List Window) (w : Window)
    (hw : w ∈ ws) (hk : ¬ (pushW P w).screen_pos < T) :
    Item.sig (Event.notificationClosed w.nid reasonExpired) ∈ (restack P T ws).2 := by
  rw [restack_snd_eq]
  refine List.mem_filterMap.2 ⟨w, hw, ?_⟩
  have : keepW P T w = false := by simp [keepW, hk]
  simp [this]

/-! ### Step characterizations -/

theorem mem_removeNid (l : List Window) (id : Nat) (w : Window) :
    w ∈ l.filter (fun v => v.nid != id) ↔ w ∈ l ∧ w.nid ≠ id := by
  simp [List.mem_filter]

theorem make_fields (id : Nat) (a : String) (r : Nat) (ic s b : String)
    (acts : List String) (n : NotificationRecord)
    (h : NotificationRecord.make id a r ic s b acts = some n) :
    n.id = id ∧ n.expire_timeout = 5000 ∧ n.app_name = a ∧ n.actions = acts := by
  unfold NotificationRecord.make at h
  cases hp : parseContent a s b with
  | none => rw [hp] at h; cases h
  | some tsb =>
    obtain ⟨t, su, bb⟩ := tsb
    rw [hp] at h
    simp only [Option.some.injEq] at h
    subst h
    exact ⟨rfl, rfl, rfl, rfl⟩

theorem notifyOp_eq_some (P T : Nat) (st : NState) (a : String) (r : Nat)
    (ic s b : String) (acts : List String) (et : Int) (n : NotificationRecord)
    (hn : NotificationRecord.make (st.counter + 1) a r ic s b acts = some n) :
    notifyOp P T st a r ic s b acts et
      = ({ counter := st.counter + 1,
           nots := (restack P T st.nots).1 ++ [createNotificationWindow n P],
           timers := st.timers ++ [(st.counter + 1, n.expire_timeout)],
           trace := st.trace ++ (restack P T st.nots).2 },
         some (st.counter + 1)) := by
  simp only [notifyOp]
  rw [hn]

theorem notifyOp_eq_none (P T : Nat) (st : NState) (a : String) (r : Nat)
    (ic s b : String) (acts : List String) (et : Int)
    (hn : NotificationRecord.make (st.counter + 1) a r ic s b acts = none) :
    notifyOp P T st a r ic s b acts et
      = ({ st with counter := st.counter + 1 }, none) := by
  simp only [notifyOp]
  rw [hn]

theorem notifyOp_fst_some (P T : Nat) (st : NState) (a : String) (r : Nat)
    (ic s b : String) (acts : List String) (et : Int) (n : NotificationRecord)
    (hn : NotificationRecord.make (st.counter + 1) a r ic s b acts = some n) :
    (notifyOp P T st a r ic s b acts et).1
      = { counter := st.counter + 1,
          nots := (restack P T st.nots).1 ++ [createNotificationWindow n P],
          timers := st.timers ++ [(st.counter + 1, n.expire_timeout)],
          trace := st.trace ++ (restack P T st.nots).2 } := by
  rw [notifyOp_eq_some P T st a r ic s b acts et n hn]

theorem notifyOp_snd_some (P T : Nat) (st : NState) (a : String) (r : Nat)
    (ic s b : String) (acts : List String) (et : Int) (n : NotificationRecord)
    (hn : NotificationRecord.make (st.counter + 1) a r ic s b acts = some n) :
    (notifyOp P T st a r ic s b acts et).2 = some (st.counter + 1) := by
  rw [notifyOp_eq_some P T st a r ic s b acts et n hn]

theorem notifyOp_fst_none (P T : Nat) (st : NState) (a : String) (r : Nat)
    (ic s b : String) (acts : List String) (et : Int)
    (hn : NotificationRecord.make (st.counter + 1) a r ic s b acts = none) :
    (notifyOp P T st a r ic s b acts et).1
      = { st with counter := st.counter + 1 } := by
  rw [notifyOp_eq_none P T st a r ic s b acts et hn]

theorem closeNotificationOp_eq_pos (st : NState) (id : Nat)
    (hl : live st id = true) :
    closeNotificationOp st id true
      = { st with nots := st.nots.filter (fun w => w.nid != id) } := by
  unfold closeNotificationOp
  rw [if_pos (by simp [hl])]

theorem closeNotificationOp_eq_neg (st : NState) (id : Nat) (bp : Bool)
    (h : live st id = false ∨ bp = false) :
    closeNotificationOp st id bp = st := by
  unfold closeNotificationOp
  rcases h with h | h <;> rw [if_neg (by simp [h])]

theorem closeWindow_eq_live (st : NState) (id : Nat) (hl : live st id = true) :
    closeWindow st id
      = { st with nots := st.nots.filter (fun w => w.nid != id),
                  trace := st.trace
                    ++ [Item.sig (Event.notificationClosed id reasonExpired)] } := by
  unfold closeWindow
  rw [if_pos hl]

theorem closeWindow_eq_dead (st : NState) (id : Nat) (hl : live st id = false) :
    closeWindow st id = st := by
  unfold closeWindow
  rw [if_neg (by simp [hl])]

theorem timerFireOp_eq_live (st : NState) (id : Nat)
    (ht : st.timers.any (fun t => t.1 == id) = true) (hl : live st id = true) :
    timerFireOp st id
      = { st with timers := st.timers.filter (fun t => t.1 != id),
                  nots := st.nots.filter (fun w => w.nid != id),
                  trace := st.trace
                    ++ [Item.sig (Event.notificationClosed id reasonExpired)] } := by
  unfold timerFireOp
  rw [if_pos ht]
  have : live { st with timers := st.timers.filter (fun t => t.1 != id) } id
      = true := hl
  rw [closeWindow_eq_live _ _ this]

theorem timerFireOp_eq_dead (st : NState) (id : Nat)
    (ht : st.timers.any (fun t => t.1 == id) = true) (hl : live st id = false) :
    timerFireOp st id
      = { st with timers := st.timers.filter (fun t => t.1 != id) } := by
  unfold timerFireOp
  rw [if_pos ht]
  exact closeWindow_eq_dead _ _ hl

theorem timerFireOp_eq_noTimer (st : NState) (id : Nat)
    (ht : st.timers.any (fun t => t.1 == id) = false) :
    timerFireOp st id = st := by
  unfold timerFireOp
  rw [if_neg (by simp [ht])]

theorem onActionInvoked_eq_none (st : NState) (id : Nat) (k : String) (cut : Nat)
    (hf : st.nots.find? (fun w => w.nid == id) = none) :
    onActionInvoked st id k cut = st := by
  unfold onActionInvoked
  rw [hf]

theorem onActionInvoked_eq_some (st : NState) (id : Nat) (k : String) (cut : Nat)
    (w0 : Window) (hf : st.nots.find? (fun w => w.nid == id) = some w0) :
    onActionInvoked st id k cut
      = { st with nots := st.nots.filter (fun w => w.nid != id),
                  trace := st.trace
                    ++ ((routeEffects w0.notification k).take cut).map Item.ext
                    ++ [Item.sig (Event.actionInvoked id k)]
                    ++ [Item.sig (Event.notificationClosed id reasonDismissed)] } := by
  have hw0 : w0 ∈ st.nots := List.mem_of_find?_eq_some hf
  have hw0id : w0.nid = id := by simpa using List.find?_some hf
  have hl : live { st with trace := st.trace
      ++ ((routeEffects w0.notification k).take cut).map Item.ext
      ++ [Item.sig (Event.actionInvoked id k)] } id = true :=
    (live_iff _ _).2 ⟨w0, hw0, hw0id⟩
  unfold onActionInvoked
  rw [hf]
  show closeWindowById { st with trace := st.trace
      ++ ((routeEffects w0.notification k).take cut).map Item.ext
      ++ [Item.sig (Event.actionInvoked id k)] } id reasonDismissed = _
  unfold closeWindowById
  rw [if_pos hl]

theorem live_of_find? (st : NState) (id : Nat) (w0 : Window)
    (hf : st.nots.find? (fun w => w.nid == id) = some w0) : live st id = true :=
  (live_iff _ _).2 ⟨w0, List.mem_of_find?_eq_some hf, by simpa using List.find?_some hf⟩

theorem find?_of_live (st : NState) (id : Nat) (hl : live st id = true) :
    ∃ w0, st.nots.find? (fun w => w.nid == id) = some w0 := by
  rcases (live_iff st id).1 hl with ⟨w, hw, hid⟩
  have : (st.nots.find? (fun w => w.nid == id)).isSome := by
    rw [List.find?_isSome]
    exact ⟨w, hw, by simp [hid]⟩
  exact Option.isSome_iff_exists.1 this

theorem find?_none_of_dead (st : NState) (id : Nat) (hl : live st id = false) :
    st.nots.find? (fun w => w.nid == id) = none := by
  rw [List.find?_eq_none]
  intro w hw hp
  have : live st id = true := (live_iff st id).2 ⟨w, hw, by simpa using hp⟩
  rw [this] at hl
  cases hl

theorem keepW_iff (P T : Nat) (w : Window) :
    keepW P T w = true ↔ (pushW P w).screen_pos < T := by simp [keepW]

/-! ### The reachable-state invariant

Every state the daemon can reach satisfies `Inv`: table ids are pairwise
distinct (the table is a dict keyed by id) and bounded by the counter, at
most one `NotificationClosed` signal has ever been emitted per id, none for
a live or not-yet-assigned id, and every live window has an armed timer
(timers are armed at `Notify` and never cancelled before firing). -/

structure Inv (st : NState) : Prop where
  nodup : (st.nots.map Window.nid).Nodup
  idLe : ∀ w ∈ st.nots, w.nid ≤ st.counter
  timerLe : ∀ t ∈ st.timers, t.1 ≤ st.counter
  closedLe : ∀ id, closedCount id st.trace ≤ 1
  liveZero : ∀ w ∈ st.nots, closedCount w.nid st.trace = 0
  freshZero : ∀ id, st.counter < id → closedCount id st.trace = 0
  liveTimer : ∀ w ∈ st.nots, st.timers.any (fun t => t.1 == w.nid) = true
  timersNodup : (st.timers.map Prod.fst).Nodup

theorem inv_init : Inv initState := by
  constructor <;> simp [initState, closedCount]

theorem inv_removeNots (st : NState) (id : Nat) (h : Inv st) :
    Inv { st with nots := st.nots.filter (fun w => w.nid != id) } := by
  constructor
  · exact List.Nodup.sublist
      (List.Sublist.map Window.nid (List.filter_sublist st.nots)) h.nodup
  · exact fun w hw => h.idLe w ((mem_removeNid _ _ _).1 hw).1
  · exact h.timerLe
  · exact h.closedLe
  · exact fun w hw => h.liveZero w ((mem_removeNid _ _ _).1 hw).1
  · exact h.freshZero
  · exact fun w hw => h.liveTimer w ((mem_removeNid _ _ _).1 hw).1
  · exact h.timersNodup

theorem inv_closeNotification (st : NState) (id : Nat) (bp : Bool) (h : Inv st) :
    Inv (closeNotificationOp st id bp) := by
  unfold closeNotificationOp
  split
  · exact inv_removeNots st id h
  · exact h

/-- Removing a live id and emitting one closed signal for it (possibly after
trace items that are not closed signals) preserves the invariant. -/
theorem inv_removeEmit (st : NState) (id reason : Nat) (mid : List Item)
    (hmid : ∀ j, closedCount j mid = 0)
    (hl : live st id = true) (h : Inv st) :
    Inv { st with nots := st.nots.filter (fun w => w.nid != id),
                  trace := st.trace ++ mid
                    ++ [Item.sig (Event.notificationClosed id reason)] } := by
  rcases (live_iff st id).1 hl with ⟨w0, hw0, hw0id⟩
  have hidLe : id ≤ st.counter := hw0id ▸ h.idLe w0 hw0
  have hid0 : closedCount id st.trace = 0 := hw0id ▸ h.liveZero w0 hw0
  have hcount : ∀ j, closedCount j (st.trace ++ mid
      ++ [Item.sig (Event.notificationClosed id reason)])
      = closedCount j st.trace + (if j = id then 1 else 0) := by
    intro j
    rw [closedCount_append, closedCount_append, hmid]
    by_cases hj : j = id
    · subst hj
      rw [closedCount_closed_self]
      simp
    · rw [closedCount_closed_ne j id reason (fun he => hj he.symm)]
      simp [hj]
  constructor
  · exact List.Nodup.sublist
      (List.Sublist.map Window.nid (List.filter_sublist st.nots)) h.nodup
  · exact fun w hw => h.idLe w ((mem_removeNid _ _ _).1 hw).1
  · exact h.timerLe
  · intro j
    rw [hcount]
    by_cases hj : j = id
    · subst hj; rw [hid0]; simp
    · rw [if_neg hj]; simpa using h.closedLe j
  · intro w hw
    obtain ⟨hmem, hne⟩ := (mem_removeNid _ _ _).1 hw
    rw [hcount, if_neg hne, h.liveZero w hmem]
  · intro j hj
    have hj' : st.counter < j := hj
    have hne : j ≠ id := fun he => by omega
    rw [hcount, if_neg hne, h.freshZero j hj']
  · exact fun w hw => h.liveTimer w ((mem_removeNid _ _ _).1 hw).1
  · exact h.timersNodup

theorem inv_timerFire (st : NState) (id : Nat) (h : Inv st) :
    Inv (timerFireOp st id) := by
  cases ht : st.timers.any (fun t => t.1 == id) with
  | false =>
    rw [timerFireOp_eq_noTimer st id ht]
    exact h
  | true =>
    cases hl : live st id with
    | true =>
      rw [timerFireOp_eq_live st id ht hl]
      have base := inv_removeEmit st id reasonExpired [] (fun j => rfl) hl h
      constructor
      · exact base.nodup
      · exact base.idLe
      · exact fun t htm => h.timerLe t (List.mem_of_mem_filter htm)
      · intro j; simpa using base.closedLe j
      · intro w hw; simpa using base.liveZero w hw
      · intro j hj; simpa using base.freshZero j hj
      · intro w hw
        obtain ⟨hmem, hne⟩ := (mem_removeNid _ _ _).1 hw
        rcases List.any_eq_true.1 (h.liveTimer w hmem) with ⟨t, htm, hte⟩
        refine List.any_eq_true.2 ⟨t, List.mem_filter.2 ⟨htm, ?_⟩, hte⟩
        have : t.1 = w.nid := by simpa using hte
        simp [this, hne]
      · exact List.Nodup.sublist
          (List.Sublist.map Prod.fst (List.filter_sublist st.timers)) h.timersNodup
    | false =>
      rw [timerFireOp_eq_dead st id ht hl]
      constructor
      · exact h.nodup
      · exact h.idLe
      · exact fun t htm => h.timerLe t (List.mem_of_mem_filter htm)
      · exact h.closedLe
      · exact h.liveZero
      · exact h.freshZero
      · intro w hw
        have hne : w.nid ≠ id := by
          intro he
          have : live st id = true := (live_iff st id).2 ⟨w, hw, he⟩
          rw [this] at hl
          cases hl
        rcases List.any_eq_true.1 (h.liveTimer w hw) with ⟨t, htm, hte⟩
        refine List.any_eq_true.2 ⟨t, List.mem_filter.2 ⟨htm, ?_⟩, hte⟩
        have : t.1 = w.nid := by simpa using hte
        simp [this, hne]
      · exact List.Nodup.sublist
          (List.Sublist.map Prod.fst (List.filter_sublist st.timers)) h.timersNodup

theorem inv_action (st : NState) (id : Nat) (k : String) (cut : Nat) (h : Inv st) :
    Inv (onActionInvoked st id k cut) := by
  by_cases hl : live st id = true
  · rcases find?_of_live st id hl with ⟨w0, hf⟩
    rw [onActionInvoked_eq_some st id k cut w0 hf]
    have hmid : ∀ j, closedCount j
        (((routeEffects w0.notification k).take cut).map Item.ext
          ++ [Item.sig (Event.actionInvoked id k)]) = 0 := by
      intro j
      rw [closedCount_append, closedCount_ext, closedCount_action_item]
    have := inv_removeEmit st id reasonDismissed
      (((routeEffects w0.notification k).take cut).map Item.ext
        ++ [Item.sig (Event.actionInvoked id k)]) hmid hl h
    simpa [List.append_assoc] using this
  · rw [onActionInvoked_eq_none st id k cut
      (find?_none_of_dead st id (by simpa using hl))]
    exact h

theorem inv_mapPreserveNid (st : NState) (f : Window → Window)
    (hf : ∀ w, (f w).nid = w.nid) (h : Inv st) :
    Inv { st with nots := st.nots.map f } := by
  have hmap : (st.nots.map f).map Window.nid = st.nots.map Window.nid := by
    rw [List.map_map]
    exact List.map_congr_left (fun w _ => hf w)
  constructor
  · rw [hmap]; exact h.nodup
  · intro w hw
    rcases List.mem_map.1 hw with ⟨v, hv, he⟩
    rw [← he, hf]
    exact h.idLe v hv
  · exact h.timerLe
  · exact h.closedLe
  · intro w hw
    rcases List.mem_map.1 hw with ⟨v, hv, he⟩
    rw [← he, hf]
    exact h.liveZero v hv
  · exact h.freshZero
  · intro w hw
    rcases List.mem_map.1 hw with ⟨v, hv, he⟩
    rw [← he, hf]
    exact h.liveTimer v hv
  · exact h.timersNodup

theorem resize_nid (id cw ch : Nat) (w : Window) :
    (if w.nid == id then
      { w with width := max cw 200 + 2, height := max ch 50 + 2 } else w).nid
      = w.nid := by
  by_cases hw : w.notification.id = id <;> simp [Window.nid, hw]

theorem resizeFb_nid (id : Nat) (w : Window) :
    (if w.nid == id then { w with width := 320, height := 80 } else w).nid
      = w.nid := by
  by_cases hw : w.notification.id = id <;> simp [Window.nid, hw]

theorem inv_resize (st : NState) (id cw ch : Nat) (h : Inv st) :
    Inv (resizeOp st id cw ch) :=
  inv_mapPreserveNid st _ (fun w => resize_nid id cw ch w) h

theorem inv_resizeFallback (st : NState) (id : Nat) (h : Inv st) :
    Inv (resizeFallbackOp st id) :=
  inv_mapPreserveNid st _ (fun w => resizeFb_nid id w) h

theorem inv_notify (P T : Nat) (st : NState) (a : String) (r : Nat)
    (ic s b : String) (acts : List String) (et : Int) (h : Inv st) :
    Inv (notifyOp P T st a r ic s b acts et).1 := by
  cases hn : NotificationRecord.make (st.counter + 1) a r ic s b acts with
  | none =>
    rw [notifyOp_fst_none P T st a r ic s b acts et hn]
    constructor
    · exact h.nodup
    · exact fun w hw => (h.idLe w hw).trans (Nat.le_succ _)
    · exact fun t htm => (h.timerLe t htm).trans (Nat.le_succ _)
    · exact h.closedLe
    · exact h.liveZero
    · exact fun id hid => h.freshZero id (Nat.lt_of_succ_lt hid)
    · exact h.liveTimer
    · exact h.timersNodup
  | some n =>
    rw [notifyOp_fst_some P T st a r ic s b acts et n hn]
    obtain ⟨hnid, -, -, -⟩ := make_fields _ _ _ _ _ _ _ _ hn
    have hwinid : (createNotificationWindow n P).nid = st.counter + 1 := by
      simp [createNotificationWindow, Window.nid, hnid]
    constructor
    · rw [List.map_append]
      rw [List.nodup_append]
      refine ⟨restack_nodup P T st.nots h.nodup, by simp, ?_⟩
      intro j hj
      have hjle : j ≤ st.counter := by
        rcases List.mem_map.1 hj with ⟨v, hv, he⟩
        rcases restack_src P T st.nots v hv with ⟨u, hu, -, hvu⟩
        have : v.nid = u.nid := by rw [hvu, pushW_nid]
        exact he ▸ this ▸ h.idLe u hu
      simp [hwinid]
      omega
    · intro w hw
      rcases List.mem_append.1 hw with hw | hw
      · rcases restack_src P T st.nots w hw with ⟨u, hu, -, hvu⟩
        have : w.nid = u.nid := by rw [hvu, pushW_nid]
        rw [this]
        exact (h.idLe u hu).trans (Nat.le_succ _)
      · rw [List.mem_singleton.1 hw, hwinid]
    · intro t htm
      rcases List.mem_append.1 htm with htm | htm
      · exact (h.timerLe t htm).trans (Nat.le_succ _)
      · rw [List.mem_singleton.1 htm]
    · intro j
      rw [closedCount_append]
      by_cases hjl : ∃ w ∈ st.nots, w.nid = j
      · rcases hjl with ⟨w1, hw1, he⟩
        have h0 : closedCount j st.trace = 0 := he ▸ h.liveZero w1 hw1
        rw [h0]
        simpa using restack_count_le P T j st.nots h.nodup
      · rw [restack_count_zero P T j st.nots (fun w hw he => hjl ⟨w, hw, he⟩)]
        simpa using h.closedLe j
    · intro w hw
      rw [closedCount_append]
      rcases List.mem_append.1 hw with hw | hw
      · rcases restack_src P T st.nots w hw with ⟨u, hu, hku, hvu⟩
        have hnu : w.nid = u.nid := by rw [hvu, pushW_nid]
        rw [hnu, h.liveZero u hu,
          restack_count_keep_zero P T st.nots u h.nodup hu ((keepW_iff P T u).1 hku)]
      · have he := List.mem_singleton.1 hw
        have h1 : closedCount w.nid st.trace = 0 := by
          rw [he, hwinid]
          exact h.freshZero _ (Nat.lt_succ_self _)
        have h2 : closedCount w.nid (restack P T st.nots).2 = 0 := by
          rw [he, hwinid]
          exact restack_count_zero P T _ st.nots
            (fun v hv hev => by have := h.idLe v hv; omega)
        rw [h1, h2]
    · intro j hj
      have hj' : st.counter + 1 < j := hj
      rw [closedCount_append,
        h.freshZero j (by omega),
        restack_count_zero P T j st.nots
          (fun v hv he => by have := h.idLe v hv; omega)]
    · intro w hw
      rcases List.mem_append.1 hw with hw | hw
      · rcases restack_src P T st.nots w hw with ⟨u, hu, -, hvu⟩
        have hnu : w.nid = u.nid := by rw [hvu, pushW_nid]
        rcases List.any_eq_true.1 (h.liveTimer u hu) with ⟨t, htm, hte⟩
        refine List.any_eq_true.2 ⟨t, List.mem_append_left _ htm, ?_⟩
        rw [hnu]
        exact hte
      · rw [List.mem_singleton.1 hw]
        refine List.any_eq_true.2 ⟨(st.counter + 1, n.expire_timeout),
          List.mem_append_right _ (List.mem_singleton.2 rfl), ?_⟩
        simp [hwinid]
    · rw [List.map_append, List.nodup_append]
      refine ⟨h.timersNodup, by simp, ?_⟩
      intro j hj
      rcases List.mem_map.1 hj with ⟨t, htm, he⟩
      have := h.timerLe t htm
      simp
      omega

theorem inv_step (P T : Nat) (st : NState) (op : Op) (h : Inv st) :
    Inv (step P T st op) := by
  cases op with
  | notify a r i s b acts e => exact inv_notify P T st a r i s b acts e h
  | close id bp => exact inv_closeNotification st id bp h
  | timerFire id => exact inv_timerFire st id h
  | action id k cut => exact inv_action st id k cut h
  | resize id cw ch => exact inv_resize st id cw ch h
  | resizeFallback id => exact inv_resizeFallback st id h

theorem inv_foldl (P T : Nat) (ops : List Op) (st : NState) (h : Inv st) :
    Inv (List.foldl (step P T) st ops) := by
  induction ops generalizing st with
  | nil => exact h
  | cons op ops ih => exact ih _ (inv_step P T st op h)

theorem inv_run (P T : Nat) (ops : List Op) : Inv (run P T ops) :=
  inv_foldl P T ops initState inv_init

/-! ### Frame lemmas and counter monotonicity -/

theorem closeNotificationOp_trace (st : NState) (id : Nat) (bp : Bool) :
    (closeNotificationOp st id bp).trace = st.trace := by
  unfold closeNotificationOp
  split <;> rfl

theorem closeNotificationOp_timers (st : NState) (id : Nat) (bp : Bool) :
    (closeNotificationOp st id bp).timers = st.timers := by
  unfold closeNotificationOp
  split <;> rfl

theorem closeNotificationOp_counter (st : NState) (id : Nat) (bp : Bool) :
    (closeNotificationOp st id bp).counter = st.counter := by
  unfold closeNotificationOp
  split <;> rfl

theorem closeWindow_counter (st : NState) (id : Nat) :
    (closeWindow st id).counter = st.counter := by
  unfold closeWindow
  split <;> rfl

theorem timerFireOp_counter (st : NState) (id : Nat) :
    (timerFireOp st id).counter = st.counter := by
  unfold timerFireOp
  split
  · rw [closeWindow_counter]
  · rfl

theorem onActionInvoked_counter (st : NState) (id : Nat) (k : String) (cut : Nat) :
    (onActionInvoked st id k cut).counter = st.counter := by
  cases hf : st.nots.find? (fun w => w.nid == id) with
  | none => rw [onActionInvoked_eq_none st id k cut hf]
  | some w0 => rw [onActionInvoked_eq_some st id k cut w0 hf]

theorem notifyOp_counter (P T : Nat) (st : NState) (a : String) (r : Nat)
    (ic s b : String) (acts : List String) (et : Int) :
    (notifyOp P T st a r ic s b acts et).1.counter = st.counter + 1 := by
  cases hn : NotificationRecord.make (st.counter + 1) a r ic s b acts with
  | none => rw [notifyOp_fst_none P T st a r ic s b acts et hn]
  | some n => rw [notifyOp_fst_some P T st a r ic s b acts et n hn]

theorem counter_step_le (P T : Nat) (st : NState) (op : Op) :
    st.counter ≤ (step P T st op).counter := by
  cases op with
  | notify a r i s b acts e =>
    have : (step P T st (Op.notify a r i s b acts e)).counter = st.counter + 1 :=
      notifyOp_counter P T st a r i s b acts e
    omega
  | close id bp =>
    have : (step P T st (Op.close id bp)).counter = st.counter :=
      closeNotificationOp_counter st id bp
    omega
  | timerFire id =>
    have : (step P T st (Op.timerFire id)).counter = st.counter :=
      timerFireOp_counter st id
    omega
  | action id k cut =>
    have : (step P T st (Op.action id k cut)).counter = st.counter :=
      onActionInvoked_counter st id k cut
    omega
  | resize id cw ch => exact Nat.le_refl _
  | resizeFallback id => exact Nat.le_refl _

theorem notifyOp_some_nid (P T : Nat) (st : NState) (a : String) (r : Nat)
    (ic s b : String) (acts : List String) (et : Int) (nid : Nat)
    (hs : (notifyOp P T st a r ic s b acts et).2 = some nid) :
    nid = st.counter + 1 := by
  cases hn : NotificationRecord.make (st.counter + 1) a r ic s b acts with
  | none =>
    rw [notifyOp_eq_none P T st a r ic s b acts et hn] at hs
    simp at hs
  | some n =>
    rw [notifyOp_snd_some P T st a r ic s b acts et n hn] at hs
    injection hs with hs
    exact hs.symm

/-! ### Returned ids are fresh and increasing -/

theorem runIds_bounds (P T : Nat) (st : NState) (ops : List Op) :
    List.Pairwise (· < ·) (runIds P T st ops)
    ∧ ∀ id ∈ runIds P T st ops, st.counter < id := by
  induction ops generalizing st with
  | nil => exact ⟨List.Pairwise.nil, by intro id h; cases h⟩
  | cons op ops ih =>
    obtain ⟨ihp, ihb⟩ := ih (step P T st op)
    cases op with
    | notify a r ic s b acts e =>
      have hsr : runIds P T st (Op.notify a r ic s b acts e :: ops)
          = (match (notifyOp P T st a r ic s b acts e).2 with
             | some id => [id]
             | none => [])
            ++ runIds P T (step P T st (Op.notify a r ic s b acts e)) ops := rfl
      cases hn : (notifyOp P T st a r ic s b acts e).2 with
      | none =>
        rw [hsr, hn]
        refine ⟨by simpa using ihp, ?_⟩
        intro j hj
        simp only [List.nil_append] at hj
        exact Nat.lt_of_le_of_lt (counter_step_le P T st _) (ihb j hj)
      | some nid =>
        rw [hsr, hn]
        have hnid : nid = st.counter + 1 :=
          notifyOp_some_nid P T st a r ic s b acts e nid hn
        have hstep : (step P T st (Op.notify a r ic s b acts e)).counter
            = st.counter + 1 := notifyOp_counter P T st a r ic s b acts e
        constructor
        · rw [List.singleton_append, List.pairwise_cons]
          refine ⟨fun j hj => ?_, ihp⟩
          have := ihb j hj
          omega
        · intro j hj
          rcases List.mem_cons.1 hj with hj | hj
          · omega
          · have := ihb j hj
            have := counter_step_le P T st (Op.notify a r ic s b acts e)
            omega
    | close id bp =>
      exact ⟨ihp, fun j hj =>
        Nat.lt_of_le_of_lt (counter_step_le P T st _) (ihb j hj)⟩
    | timerFire id =>
      exact ⟨ihp, fun j hj =>
        Nat.lt_of_le_of_lt (counter_step_le P T st _) (ihb j hj)⟩
    | action id k cut =>
      exact ⟨ihp, fun j hj =>
        Nat.lt_of_le_of_lt (counter_step_le P T st _) (ihb j hj)⟩
    | resize id cw ch =>
      exact ⟨ihp, fun j hj =>
        Nat.lt_of_le_of_lt (counter_step_le P T st _) (ihb j hj)⟩
    | resizeFallback id =>
      exact ⟨ihp, fun j hj =>
        Nat.lt_of_le_of_lt (counter_step_le P T st _) (ihb j hj)⟩

/-! ### On-screen position bound -/

theorem closeNotificationOp_nots_sub (st : NState) (id : Nat) (bp : Bool)
    (w : Window) (hw : w ∈ (closeNotificationOp st id bp).nots) : w ∈ st.nots := by
  unfold closeNotificationOp at hw
  split at hw
  · exact ((mem_removeNid _ _ _).1 hw).1
  · exact hw

theorem timerFireOp_nots_sub (st : NState) (id : Nat)
    (w : Window) (hw : w ∈ (timerFireOp st id).nots) : w ∈ st.nots := by
  unfold timerFireOp at hw
  split at hw
  · unfold closeWindow at hw
    split at hw
    · exact ((mem_removeNid _ _ _).1 hw).1
    · exact hw
  · exact hw

theorem onActionInvoked_nots_sub (st : NState) (id : Nat) (k : String) (cut : Nat)
    (w : Window) (hw : w ∈ (onActionInvoked st id k cut).nots) : w ∈ st.nots := by
  cases hf : st.nots.find? (fun v => v.nid == id) with
  | none =>
    rw [onActionInvoked_eq_none st id k cut hf] at hw
    exact hw
  | some w0 =>
    rw [onActionInvoked_eq_some st id k cut w0 hf] at hw
    exact ((mem_removeNid _ _ _).1 hw).1

theorem pos_step (P T : Nat) (hPT : P < T) (st : NState) (op : Op)
    (h : ∀ w ∈ st.nots, w.screen_pos < T) :
    ∀ w ∈ (step P T st op).nots, w.screen_pos < T := by
  cases op with
  | notify a r ic s b acts e =>
    show ∀ w ∈ (notifyOp P T st a r ic s b acts e).1.nots, w.screen_pos < T
    cases hn : NotificationRecord.make (st.counter + 1) a r ic s b acts with
    | none =>
      rw [notifyOp_fst_none P T st a r ic s b acts e hn]
      exact h
    | some n =>
      rw [notifyOp_fst_some P T st a r ic s b acts e n hn]
      intro w hw
      rcases List.mem_append.1 hw with hw | hw
      · rcases restack_src P T st.nots w hw with ⟨u, hu, hku, hvu⟩
        rw [hvu]
        exact (keepW_iff P T u).1 hku
      · rw [List.mem_singleton.1 hw]
        exact hPT
  | close id bp =>
    exact fun w hw => h w (closeNotificationOp_nots_sub st id bp w hw)
  | timerFire id =>
    exact fun w hw => h w (timerFireOp_nots_sub st id w hw)
  | action id k cut =>
    exact fun w hw => h w (onActionInvoked_nots_sub st id k cut w hw)
  | resize id cw ch =>
    intro w hw
    rcases List.mem_map.1 hw with ⟨v, hv, he⟩
    have hps : w.screen_pos = v.screen_pos := by
      rw [← he]
      by_cases hc : v.notification.id = id <;> simp [Window.nid, hc]
    rw [hps]
    exact h v hv
  | resizeFallback id =>
    intro w hw
    rcases List.mem_map.1 hw with ⟨v, hv, he⟩
    have hps : w.screen_pos = v.screen_pos := by
      rw [← he]
      by_cases hc : v.notification.id = id <;> simp [Window.nid, hc]
    rw [hps]
    exact h v hv

theorem pos_foldl (P T : Nat) (hPT : P < T) (ops : List Op) (st : NState)
    (hst : ∀ w ∈ st.nots, w.screen_pos < T) :
    ∀ w ∈ (List.foldl (step P T) st ops).nots, w.screen_pos < T := by
  induction ops generalizing st with
  | nil => exact hst
  | cons op ops ih => exact ih _ (pos_step P T hPT st op hst)

theorem pos_run (P T : Nat) (hPT : P < T) (ops : List Op) :
    ∀ w ∈ (run P T ops).nots, w.screen_pos < T :=
  pos_foldl P T hPT ops initState (fun w hw => absurd hw (List.not_mem_nil w))

/-! ### Signal extraction and liveness helpers -/

theorem sigsOf_append (a b : List Item) :
    sigsOf (a ++ b) = sigsOf a ++ sigsOf b := by
  simp [sigsOf, List.filterMap_append]

theorem sigsOf_ext (fs : List Effect) : sigsOf (fs.map Item.ext) = [] := by
  induction fs with
  | nil => rfl
  | cons f fs ih =>
    simp only [List.map_cons, sigsOf, List.filterMap_cons]
    exact ih

theorem sigsOf_sig (e : Event) : sigsOf [Item.sig e] = [e] := rfl

theorem any_filter_self (l : List Window) (id : Nat) :
    (l.filter (fun w => w.nid != id)).any (fun w => w.nid == id) = false := by
  rw [← Bool.not_eq_true]
  intro hl
  rcases List.any_eq_true.1 hl with ⟨w, hw, he⟩
  exact ((mem_removeNid _ _ _).1 hw).2 (by simpa using he)

theorem live_filter (st' : NState) (id : Nat) (l : List Window)
    (hn : st'.nots = l.filter (fun w => w.nid != id)) : live st' id = false := by
  unfold live
  rw [hn]
  exact any_filter_self l id

/-! ### The head of a single-character split is `takeWhile` -/

theorem splitChFuel_ne_nil (sep : List Char) (fuel : Nat) (s acc : List Char) :
    splitChFuel sep fuel s acc ≠ [] := by
  induction fuel generalizing s acc with
  | zero => simp [splitChFuel]
  | succ fuel ih =>
    cases s with
    | nil => simp [splitChFuel]
    | cons c cs =>
      by_cases hp : hasPrefixCh sep (c :: cs) = true
      · simp [splitChFuel, hp]
      · simpa [splitChFuel, hp] using ih cs (c :: acc)

theorem splitChFuel_head_single (c0 : Char) (fuel : Nat) (s acc : List Char)
    (hf : s.length < fuel) :
    (splitChFuel [c0] fuel s acc).headD []
      = acc.reverse ++ s.takeWhile (fun c => c != c0) := by
  induction fuel generalizing s acc with
  | zero => omega
  | succ fuel ih =>
    cases s with
    | nil => simp [splitChFuel]
    | cons c cs =>
      have hpre : hasPrefixCh [c0] (c :: cs) = (c0 == c) := by
        simp [hasPrefixCh]
      by_cases hc : (c0 == c) = true
      · have hceq : c0 = c := by simpa using hc
        have : (c != c0) = false := by simp [hceq]
        simp [splitChFuel, hpre, hc, List.takeWhile_cons, this]
      · have hcne : ¬ c = c0 := fun he => hc (by simp [he])
        have h1 : (c != c0) = true := by simpa using hcne
        have hlt : cs.length < fuel := by
          simp at hf
          omega
        have hstep : splitChFuel [c0] (fuel + 1) (c :: cs) acc
            = splitChFuel [c0] fuel cs (c :: acc) := by
          simp [splitChFuel, hpre, hc]
        rw [hstep, ih cs (c :: acc) hlt]
        simp [List.takeWhile_cons, h1, List.reverse_cons, List.append_assoc]

theorem pySplit_head_colon (s : String) :
    (pySplit s ":").headD ""
      = String.mk (s.data.takeWhile (fun c => c != ':')) := by
  have h1 := splitChFuel_head_single ':' (s.data.length + 1) s.data []
    (Nat.lt_succ_self _)
  cases hsp : splitChFuel [':'] (s.data.length + 1) s.data [] with
  | nil => exact absurd hsp (splitChFuel_ne_nil _ _ _ _)
  | cons x xs =>
    rw [hsp] at h1
    simp only [List.headD_cons, List.reverse_nil, List.nil_append] at h1
    unfold pySplit
    rw [show (":" : String).data = [':'] from rfl, hsp]
    simp [h1]

/-! ### Action router facts -/

theorem routeEffects_chat (n : NotificationRecord) (k : String)
    (happ : (["discord", "element", "telegram", "whatsapp", "signal"].contains
      (pyLower n.app_name)) = true) :
    routeEffects n k = handleChatAppAction n k := by
  unfold routeEffects
  rw [if_pos happ]

theorem handleChat_head (n : NotificationRecord) (k : String) :
    ∃ rest, handleChatAppAction n k
      = Effect.focusApp (pyLower n.app_name) :: rest :=
  ⟨_, rfl⟩

theorem handleChat_discord_reply (n : NotificationRecord)
    (hd : pyLower n.app_name = "discord") :
    Effect.sendKeys ["CTRL", "K"] ∈ handleChatAppAction n "reply" := by
  unfold handleChatAppAction
  rw [hd]
  exact List.mem_cons_of_mem _ (List.mem_cons_self _ _)

theorem handleChat_messaging_reply (n : NotificationRecord)
    (hd : pyLower n.app_name = "telegram" ∨ pyLower n.app_name = "whatsapp") :
    Effect.sendKeys ["CTRL", "F"] ∈ handleChatAppAction n "reply" := by
  unfold handleChatAppAction
  rcases hd with hd | hd <;> rw [hd] <;>
    exact List.mem_cons_of_mem _ (List.mem_cons_self _ _)

theorem chat_branch_no_keys (n : NotificationRecord) (k : String)
    (hk : (k == "reply") = false) (ks : List String) :
    Effect.sendKeys ks ∉ handleChatAppAction n k := by
  intro hmem
  have hkne : ¬ ((k == "reply") = true) := by rw [hk]; simp
  unfold handleChatAppAction at hmem
  rcases List.mem_cons.1 hmem with he | hmem
  · exact Effect.noConfusion he
  · by_cases h1 : (["reply", "open", "show"].contains k) = true
    · rw [if_pos h1] at hmem
      by_cases h2 : ((pyLower n.app_name == "discord")) = true
      · rw [if_pos h2] at hmem
        unfold handleDiscordAction at hmem
        rw [if_neg hkne] at hmem
        exact absurd hmem (List.not_mem_nil _)
      · rw [if_neg h2] at hmem
        by_cases h3 : ((pyLower n.app_name == "telegram")
            || (pyLower n.app_name == "whatsapp")) = true
        · rw [if_pos h3] at hmem
          unfold handleMessagingAppAction at hmem
          rw [if_neg hkne] at hmem
          exact absurd hmem (List.not_mem_nil _)
        · rw [if_neg h3] at hmem
          exact absurd hmem (List.not_mem_nil _)
    · rw [if_neg h1] at hmem
      exact absurd hmem (List.not_mem_nil _)

theorem extractChatInfo_subtitle (n : NotificationRecord) (sub : String)
    (hs : n.subtitle = some sub) (hne : sub ≠ "") :
    extractChatInfo n = some (pyStrip sub) := by
  unfold extractChatInfo
  rw [hs]
  show (if (sub != "") = true then some (pyStrip sub) else chatNameFromTitle n)
      = some (pyStrip sub)
  rw [if_pos (by simpa using hne)]

theorem extractChatInfo_title (n : NotificationRecord)
    (hs : n.subtitle = none ∨ n.subtitle = some "")
    (ht : pyIn ":" n.title = true) :
    extractChatInfo n
      = some (pyStrip (String.mk (n.title.data.takeWhile (fun c => c != ':')))) := by
  have hcn : chatNameFromTitle n
      = some (pyStrip (String.mk (n.title.data.takeWhile (fun c => c != ':')))) := by
    unfold chatNameFromTitle
    rw [if_pos ht, pySplit_head_colon]
  unfold extractChatInfo
  rcases hs with hs | hs <;> rw [hs]
  · exact hcn
  · exact hcn

/-! ### Concrete sample values for instantiations -/

/-- A minimal well-formed inbound request (`Notify("app", 0, "", "t", "b", [],
{}, 5000)`), used by concrete instantiations. -/
def sampleNotify : Op := Op.notify "app" 0 "" "t" "b" [] 5000

/-- The record the parser builds for `sampleNotify` under id 1. -/
def sampleRecord1 : NotificationRecord :=
  { id := 1, app_name := "app", replaces_id := 0, app_icon := "", title := "t",
    subtitle := none, body := "b", actions := [], expire_timeout := 5000,
    replaceable := false }

/-- The same record under id 2. -/
def sampleRecord2 : NotificationRecord := { sampleRecord1 with id := 2 }

/-- The window of notification 1 right after its own `Notify`. -/
def sampleWindow1 : Window :=
  { notification := sampleRecord1, width := 320, height := 100, screen_pos := 10 }

/-- The window of notification 1 after one further `Notify` pushed it down
(padding 10: 10 + 100 + 10 = 120). -/
def sampleWindow1Pushed : Window :=
  { notification := sampleRecord1, width := 320, height := 100, screen_pos := 120 }

/-! ### Claim theorems -/

/-- Claim C2, counterexample.  With padding 10 and threshold 800, after one
`Notify` the id 1 is live; `CloseNotification(1, True)` does remove the
record, but the trace is unchanged — no `NotificationClosed` signal is
emitted, contradicting "emits exactly one closed event carrying the given
reason" — and the armed timer `(1, 5000)` is not cancelled. -/
theorem C2_counterexample :
    live (run 10 800 [sampleNotify]) 1 = true
    ∧ (closeNotificationOp (run 10 800 [sampleNotify]) 1 true).nots = []
    ∧ (closeNotificationOp (run 10 800 [sampleNotify]) 1 true).trace
        = (run 10 800 [sampleNotify]).trace
    ∧ sigsOf (closeNotificationOp (run 10 800 [sampleNotify]) 1 true).trace = []
    ∧ (closeNotificationOp (run 10 800 [sampleNotify]) 1 true).timers
        = [(1, 5000)] := by
  decide

/-- Claim C2, amended: `CloseNotification(id, by_program)` removes the table
entry when the id is live and `by_program` is true, and that is all it does —
it emits no signal, cancels no timer, changes no counter, and leaves every
other window untouched; on an absent id, or with `by_program` false, it is a
complete no-op. -/
theorem C2_close_is_bare_removal (P T id : Nat) (bp : Bool) (ops : List Op)
    (w : Window) (hw : w ∈ (run P T ops).nots) (hne : w.nid ≠ id) :
    (closeNotificationOp (run P T ops) id bp).trace = (run P T ops).trace
    ∧ (closeNotificationOp (run P T ops) id bp).timers = (run P T ops).timers
    ∧ (closeNotificationOp (run P T ops) id bp).counter = (run P T ops).counter
    ∧ (live (run P T ops) id = true → bp = true →
        live (closeNotificationOp (run P T ops) id bp) id = false)
    ∧ (live (run P T ops) id = false ∨ bp = false →
        closeNotificationOp (run P T ops) id bp = run P T ops)
    ∧ w ∈ (closeNotificationOp (run P T ops) id bp).nots := by
  refine ⟨closeNotificationOp_trace _ id bp, closeNotificationOp_timers _ id bp,
    closeNotificationOp_counter _ id bp, ?_, closeNotificationOp_eq_neg _ id bp, ?_⟩
  · intro hl hbp
    subst hbp
    rw [closeNotificationOp_eq_pos _ id hl]
    exact live_filter _ id _ rfl
  · unfold closeNotificationOp
    split
    · exact (mem_removeNid _ _ _).2 ⟨hw, hne⟩
    · exact hw

theorem C2_close_is_bare_removal_witness :
    (sampleWindow1 ∈ (run 10 800 [sampleNotify]).nots ∧ sampleWindow1.nid ≠ 2)
    ∧ ((closeNotificationOp (run 10 800 [sampleNotify]) 2 false).trace
        = (run 10 800 [sampleNotify]).trace
      ∧ (closeNotificationOp (run 10 800 [sampleNotify]) 2 false).timers
        = (run 10 800 [sampleNotify]).timers
      ∧ (closeNotificationOp (run 10 800 [sampleNotify]) 2 false).counter
        = (run 10 800 [sampleNotify]).counter
      ∧ (live (run 10 800 [sampleNotify]) 2 = true → false = true →
          live (closeNotificationOp (run 10 800 [sampleNotify]) 2 false) 2 = false)
      ∧ (live (run 10 800 [sampleNotify]) 2 = false ∨ false = false →
          closeNotificationOp (run 10 800 [sampleNotify]) 2 false
            = run 10 800 [sampleNotify])
      ∧ sampleWindow1 ∈ (closeNotificationOp (run 10 800 [sampleNotify]) 2 false).nots) :=
  ⟨⟨by decide, by decide⟩,
    C2_close_is_bare_removal 10 800 2 false [sampleNotify] sampleWindow1
      (by decide) (by decide)⟩

/-- Claim C3, counterexample.  With padding 10 and threshold 800, after two
`Notify` calls the table (in insertion order) holds the first record at
offset 120 and the second at offset 10: the code pushes OLD records down and
puts the NEW one at the top padding, so the first record — with no earlier
records at all — sits at 120, not at the spec formula's 10. -/
theorem C3_counterexample :
    ((run 10 800 [sampleNotify, sampleNotify]).nots.map
        (fun w => w.screen_pos)) = [120, 10]
    ∧ specStackOffset 10 [] = 10
    ∧ ¬ (∀ i : Fin (run 10 800 [sampleNotify, sampleNotify]).nots.length,
          ((run 10 800 [sampleNotify, sampleNotify]).nots.get i).screen_pos
            = specStackOffset 10
                ((run 10 800 [sampleNotify, sampleNotify]).nots.take i.1)) := by
  decide

/-- Claim C3, amended: on every `Notify`, each already-live record's
`stack_offset` grows by that record's own height plus the padding (records
reaching the threshold are dropped), and the new record is inserted at the
top padding; removals (`CloseNotification`) do not recompute any offset, so
gaps are never compacted.  Offsets are incremental, not the spec's
sum-over-earlier-records formula. -/
theorem C3_push_down_stacking (P T : Nat) (ops : List Op) (a : String) (r : Nat)
    (ic s b : String) (acts : List String) (et : Int) (n : NotificationRecord)
    (hn : NotificationRecord.make ((run P T ops).counter + 1) a r ic s b acts
      = some n) :
    (notifyOp P T (run P T ops) a r ic s b acts et).1.nots
      = ((run P T ops).nots.filterMap fun w =>
          if keepW P T w then some (pushW P w) else none)
        ++ [createNotificationWindow n P]
    ∧ (createNotificationWindow n P).screen_pos = P
    ∧ (∀ w ∈ (run P T ops).nots, keepW P T w = true →
        pushW P w ∈ (notifyOp P T (run P T ops) a r ic s b acts et).1.nots)
    ∧ (∀ id bp, ∀ w ∈ (run P T ops).nots, w.nid ≠ id →
        w ∈ (closeNotificationOp (run P T ops) id bp).nots) := by
  refine ⟨?_, rfl, ?_, ?_⟩
  · rw [notifyOp_fst_some P T (run P T ops) a r ic s b acts et n hn]
    show (restack P T (run P T ops).nots).1 ++ _ = _
    rw [restack_fst_eq]
  · intro w hw hk
    rw [notifyOp_fst_some P T (run P T ops) a r ic s b acts et n hn]
    exact List.mem_append_left _ (restack_mem_of_keep P T _ w hw hk)
  · intro id bp w hw hne
    unfold closeNotificationOp
    split
    · exact (mem_removeNid _ _ _).2 ⟨hw, hne⟩
    · exact hw

theorem C3_push_down_stacking_witness :
    NotificationRecord.make ((run 10 800 [sampleNotify]).counter + 1)
      "app" 0 "" "t" "b" [] = some sampleRecord2
    ∧ ((notifyOp 10 800 (run 10 800 [sampleNotify]) "app" 0 "" "t" "b" [] 5000).1.nots
        = ((run 10 800 [sampleNotify]).nots.filterMap fun w =>
            if keepW 10 800 w then some (pushW 10 w) else none)
          ++ [createNotificationWindow sampleRecord2 10]
      ∧ (createNotificationWindow sampleRecord2 10).screen_pos = 10
      ∧ (∀ w ∈ (run 10 800 [sampleNotify]).nots, keepW 10 800 w = true →
          pushW 10 w ∈ (notifyOp 10 800 (run 10 800 [sampleNotify])
            "app" 0 "" "t" "b" [] 5000).1.nots)
      ∧ (∀ id bp, ∀ w ∈ (run 10 800 [sampleNotify]).nots, w.nid ≠ id →
          w ∈ (closeNotificationOp (run 10 800 [sampleNotify]) id bp).nots)) :=
  ⟨by decide,
    C3_push_down_stacking 10 800 [sampleNotify] "app" 0 "" "t" "b" [] 5000
      sampleRecord2 (by decide)⟩

/-- Claim C5, counterexample.  A requested `expire_timeout` of 0 — which per
the claim must suppress arming — still arms a timer, and its duration is the
constructor default 5000 ms; a requested 7000 also yields a 5000 ms timer,
so the armed duration is never the requested one. -/
theorem C5_counterexample :
    (run 10 800 [Op.notify "app" 0 "" "t" "b" [] 0]).timers = [(1, 5000)]
    ∧ (run 10 800 [Op.notify "app" 0 "" "t" "b" [] 7000]).timers
        = [(1, 5000)] := by
  decide

/-- Claim C5, amended: every `Notify` whose parser succeeds arms exactly one
timer for the new id, with the record's `expire_timeout` — always the 5000 ms
constructor default — regardless of the requested timeout; a requested 0 (or
negative) timeout neither suppresses arming nor changes the duration. -/
theorem C5_timer_always_armed (P T : Nat) (ops : List Op) (a : String) (r : Nat)
    (ic s b : String) (acts : List String) (et : Int) (nid : Nat)
    (hs : (notifyOp P T (run P T ops) a r ic s b acts et).2 = some nid) :
    (notifyOp P T (run P T ops) a r ic s b acts et).1.timers
      = (run P T ops).timers ++ [(nid, 5000)] := by
  cases hn : NotificationRecord.make ((run P T ops).counter + 1) a r ic s b acts with
  | none =>
    rw [notifyOp_eq_none P T (run P T ops) a r ic s b acts et hn] at hs
    simp at hs
  | some n =>
    have hnid : nid = (run P T ops).counter + 1 :=
      notifyOp_some_nid P T (run P T ops) a r ic s b acts et nid hs
    obtain ⟨-, h5, -, -⟩ := make_fields _ _ _ _ _ _ _ _ hn
    rw [notifyOp_fst_some P T (run P T ops) a r ic s b acts et n hn]
    show (run P T ops).timers ++ [((run P T ops).counter + 1, n.expire_timeout)]
        = (run P T ops).timers ++ [(nid, 5000)]
    rw [h5, hnid]

theorem C5_timer_always_armed_witness :
    (notifyOp 10 800 (run 10 800 []) "app" 0 "" "t" "b" [] 0).2 = some 1
    ∧ (notifyOp 10 800 (run 10 800 []) "app" 0 "" "t" "b" [] 0).1.timers
        = (run 10 800 []).timers ++ [(1, 5000)] :=
  ⟨by decide, C5_timer_always_armed 10 800 [] "app" 0 "" "t" "b" [] 0 1 (by decide)⟩

/-- Claim C8: over any sequence of events, the ids returned by the `Notify`
calls of one process lifetime are pairwise strictly increasing — in
particular no id is ever returned twice. -/
theorem C8_notify_ids_strictly_increasing (P T : Nat) (ops : List Op) :
    List.Pairwise (· < ·) (runIds P T initState ops) :=
  (runIds_bounds P T initState ops).1

/-- Claim C9: the requested `expire_timeout` is never forwarded to the
constructed record — the whole `Notify` outcome is independent of it, the
record's `expire_timeout` is the constructor default 5000 ms, the armed
timer's duration is that same 5000 ms, and the inserted window carries the
default-timeout record. -/
theorem C9_requested_timeout_ignored (P T : Nat) (st : NState) (a : String)
    (r : Nat) (ic s b : String) (acts : List String) (et et2 : Int)
    (n : NotificationRecord)
    (hn : NotificationRecord.make (st.counter + 1) a r ic s b acts = some n) :
    n.expire_timeout = 5000
    ∧ notifyOp P T st a r ic s b acts et = notifyOp P T st a r ic s b acts et2
    ∧ (notifyOp P T st a r ic s b acts et).1.timers
        = st.timers ++ [(st.counter + 1, 5000)]
    ∧ (notifyOp P T st a r ic s b acts et).1.nots.getLast?
        = some (createNotificationWindow n P) := by
  obtain ⟨-, h5, -, -⟩ := make_fields _ _ _ _ _ _ _ _ hn
  refine ⟨h5, rfl, ?_, ?_⟩
  · rw [notifyOp_fst_some P T st a r ic s b acts et n hn]
    show st.timers ++ [(st.counter + 1, n.expire_timeout)] = _
    rw [h5]
  · rw [notifyOp_fst_some P T st a r ic s b acts et n hn]
    show ((restack P T st.nots).1 ++ [createNotificationWindow n P]).getLast? = _
    rw [List.getLast?_concat]

theorem C9_requested_timeout_ignored_witness :
    NotificationRecord.make (initState.counter + 1) "app" 0 "" "t" "b" []
      = some sampleRecord1
    ∧ (sampleRecord1.expire_timeout = 5000
      ∧ notifyOp 10 800 initState "app" 0 "" "t" "b" [] 0
          = notifyOp 10 800 initState "app" 0 "" "t" "b" [] (-7)
      ∧ (notifyOp 10 800 initState "app" 0 "" "t" "b" [] 0).1.timers
          = initState.timers ++ [(initState.counter + 1, 5000)]
      ∧ (notifyOp 10 800 initState "app" 0 "" "t" "b" [] 0).1.nots.getLast?
          = some (createNotificationWindow sampleRecord1 10)) :=
  ⟨by decide,
    C9_requested_timeout_ignored 10 800 initState "app" 0 "" "t" "b" [] 0 (-7)
      sampleRecord1 (by decide)⟩

/-- Claim C10: none of the removal paths restacks.  Removing one record by
explicit `CloseNotification`, by a timer firing, or by a user action leaves
every other live window — including its `screen_pos` — untouched in the
table; and in the forced off-screen path inside `Notify`, each surviving
record's new position is its own old position plus its own height plus the
padding, independent of which other records were force-closed, so gaps left
by closed notifications are never compacted. -/
theorem C10_removal_frame (P T id cut : Nat) (bp : Bool) (k : String)
    (ops : List Op) (w : Window) (hw : w ∈ (run P T ops).nots)
    (hne : w.nid ≠ id) :
    w ∈ (closeNotificationOp (run P T ops) id bp).nots
    ∧ w ∈ (timerFireOp (run P T ops) id).nots
    ∧ w ∈ (onActionInvoked (run P T ops) id k cut).nots
    ∧ (∀ a r ic s ib acts et nid,
        (notifyOp P T (run P T ops) a r ic s ib acts et).2 = some nid →
        keepW P T w = true →
        pushW P w ∈ (notifyOp P T (run P T ops) a r ic s ib acts et).1.nots) := by
  refine ⟨?_, ?_, ?_, ?_⟩
  · unfold closeNotificationOp
    split
    · exact (mem_removeNid _ _ _).2 ⟨hw, hne⟩
    · exact hw
  · unfold timerFireOp
    split
    · unfold closeWindow
      split
      · exact (mem_removeNid _ _ _).2 ⟨hw, hne⟩
      · exact hw
    · exact hw
  · cases hf : (run P T ops).nots.find? (fun v => v.nid == id) with
    | none =>
      rw [onActionInvoked_eq_none _ id k cut hf]
      exact hw
    | some w0 =>
      rw [onActionInvoked_eq_some _ id k cut w0 hf]
      exact (mem_removeNid _ _ _).2 ⟨hw, hne⟩
  · intro a r ic s ib acts et nid hs hk
    cases hn : NotificationRecord.make ((run P T ops).counter + 1) a r ic s ib acts with
    | none =>
      rw [notifyOp_eq_none P T (run P T ops) a r ic s ib acts et hn] at hs
      simp at hs
    | some n =>
      rw [notifyOp_fst_some P T (run P T ops) a r ic s ib acts et n hn]
      exact List.mem_append_left _ (restack_mem_of_keep P T _ w hw hk)

theorem C10_removal_frame_witness :
    (sampleWindow1Pushed ∈ (run 10 800 [sampleNotify, sampleNotify]).nots
      ∧ sampleWindow1Pushed.nid ≠ 2)
    ∧ (sampleWindow1Pushed
        ∈ (closeNotificationOp (run 10 800 [sampleNotify, sampleNotify]) 2 true).nots
      ∧ sampleWindow1Pushed
        ∈ (timerFireOp (run 10 800 [sampleNotify, sampleNotify]) 2).nots
      ∧ sampleWindow1Pushed
        ∈ (onActionInvoked (run 10 800 [sampleNotify, sampleNotify]) 2 "x" 0).nots
      ∧ (∀ a r ic s ib acts et nid,
          (notifyOp 10 800 (run 10 800 [sampleNotify, sampleNotify])
            a r ic s ib acts et).2 = some nid →
          keepW 10 800 sampleWindow1Pushed = true →
          pushW 10 sampleWindow1Pushed
            ∈ (notifyOp 10 800 (run 10 800 [sampleNotify, sampleNotify])
                a r ic s ib acts et).1.nots)) :=
  ⟨⟨by decide, by decide⟩,
    C10_removal_frame 10 800 2 0 true "x" [sampleNotify, sampleNotify]
      sampleWindow1Pushed (by decide) (by decide)⟩

/-- Claim C1, counterexample.  With padding 10 and threshold 800: after one
`Notify`, id 1 is live; `CloseNotification(1, True)` makes it leave the table,
yet the run's trace carries no signal at all — zero closed-or-action events
for a record that left the table, contradicting "exactly one ... never
zero". -/
theorem C1_counterexample :
    live (run 10 800 [sampleNotify]) 1 = true
    ∧ live (run 10 800 [sampleNotify, Op.close 1 true]) 1 = false
    ∧ closedCount 1 (run 10 800 [sampleNotify, Op.close 1 true]).trace = 0
    ∧ sigsOf (run 10 800 [sampleNotify, Op.close 1 true]).trace = [] := by
  decide

/-- Claim C1, amended: a live record closed by its timer firing, by the forced
off-screen path, or by a user action gets exactly one `NotificationClosed`
signal, and at most one such signal is ever emitted per id in any run; but a
record removed by explicit `CloseNotification` gets none — its trace is
unchanged — and a timer firing after such an explicit close also emits
nothing, so closing the same id twice via close-then-timer yields zero
events, not one. -/
theorem C1_close_events_exactly_once (P T id cut : Nat) (k : String) (b : Bool)
    (ops ops2 : List Op)
    (hlive : live (run P T ops) id = true) :
    closedCount id (run P T ops).trace = 0
    ∧ closedCount id (timerFireOp (run P T ops) id).trace = 1
    ∧ closedCount id (onActionInvoked (run P T ops) id k cut).trace = 1
    ∧ (closeNotificationOp (run P T ops) id b).trace = (run P T ops).trace
    ∧ closedCount id
        (timerFireOp (closeNotificationOp (run P T ops) id true) id).trace = 0
    ∧ closedCount id (run P T ops2).trace ≤ 1 := by
  have h := inv_run P T ops
  rcases (live_iff (run P T ops) id).1 hlive with ⟨w0, hw0, hw0id⟩
  have h0 : closedCount id (run P T ops).trace = 0 := hw0id ▸ h.liveZero w0 hw0
  have htimer : (run P T ops).timers.any (fun t => t.1 == id) = true :=
    hw0id ▸ h.liveTimer w0 hw0
  refine ⟨h0, ?_, ?_, closeNotificationOp_trace _ id b, ?_,
    (inv_run P T ops2).closedLe id⟩
  · rw [timerFireOp_eq_live _ id htimer hlive]
    show closedCount id ((run P T ops).trace
      ++ [Item.sig (Event.notificationClosed id reasonExpired)]) = 1
    rw [closedCount_append, h0, closedCount_closed_self]
  · rcases find?_of_live _ id hlive with ⟨w1, hf⟩
    rw [onActionInvoked_eq_some _ id k cut w1 hf]
    show closedCount id ((run P T ops).trace
      ++ ((routeEffects w1.notification k).take cut).map Item.ext
      ++ [Item.sig (Event.actionInvoked id k)]
      ++ [Item.sig (Event.notificationClosed id reasonDismissed)]) = 1
    rw [closedCount_append, closedCount_append, closedCount_append, h0,
      closedCount_ext, closedCount_action_item, closedCount_closed_self]
  · have hl2 : live (closeNotificationOp (run P T ops) id true) id = false := by
      rw [closeNotificationOp_eq_pos _ id hlive]
      exact live_filter _ id _ rfl
    have ht2 : (closeNotificationOp (run P T ops) id true).timers.any
        (fun t => t.1 == id) = true := by
      rw [closeNotificationOp_timers]
      exact htimer
    rw [timerFireOp_eq_dead _ id ht2 hl2]
    show closedCount id (closeNotificationOp (run P T ops) id true).trace = 0
    rw [closeNotificationOp_trace]
    exact h0

theorem C1_close_events_exactly_once_witness :
    live (run 10 800 [sampleNotify]) 1 = true
    ∧ (closedCount 1 (run 10 800 [sampleNotify]).trace = 0
      ∧ closedCount 1 (timerFireOp (run 10 800 [sampleNotify]) 1).trace = 1
      ∧ closedCount 1 (onActionInvoked (run 10 800 [sampleNotify]) 1 "x" 0).trace = 1
      ∧ (closeNotificationOp (run 10 800 [sampleNotify]) 1 false).trace
          = (run 10 800 [sampleNotify]).trace
      ∧ closedCount 1
          (timerFireOp (closeNotificationOp (run 10 800 [sampleNotify]) 1 true) 1).trace
          = 0
      ∧ closedCount 1 (run 10 800 [sampleNotify]).trace ≤ 1) :=
  ⟨by decide,
    C1_close_events_exactly_once 10 800 1 0 "x" false [sampleNotify] [sampleNotify]
      (by decide)⟩

/-- Claim C4: in the push-down pass of a (parser-successful) `Notify`, every
pre-existing record whose pushed offset reaches or exceeds the threshold is
absent from the table immediately after the pass, and the trace holds exactly
one `NotificationClosed` for it, with reason `expired`; moreover, whenever
the padding is below the threshold, no reachable state holds any record at or
beyond the threshold. -/
theorem C4_offscreen_forced_close (P T : Nat) (ops : List Op) (a : String)
    (r : Nat) (ic s b : String) (acts : List String) (et : Int)
    (w : Window) (hw : w ∈ (run P T ops).nots)
    (hover : T ≤ (pushW P w).screen_pos)
    (nid : Nat)
    (hs : (notifyOp P T (run P T ops) a r ic s b acts et).2 = some nid) :
    live (notifyOp P T (run P T ops) a r ic s b acts et).1 w.nid = false
    ∧ closedCount w.nid (notifyOp P T (run P T ops) a r ic s b acts et).1.trace = 1
    ∧ Item.sig (Event.notificationClosed w.nid reasonExpired)
        ∈ (notifyOp P T (run P T ops) a r ic s b acts et).1.trace
    ∧ (P < T → ∀ ops2, ∀ v ∈ (run P T ops2).nots, v.screen_pos < T) := by
  have h := inv_run P T ops
  have hnk : ¬ (pushW P w).screen_pos < T := by omega
  cases hn : NotificationRecord.make ((run P T ops).counter + 1) a r ic s b acts with
  | none =>
    rw [notifyOp_eq_none P T (run P T ops) a r ic s b acts et hn] at hs
    simp at hs
  | some n =>
    obtain ⟨hnid, -, -, -⟩ := make_fields _ _ _ _ _ _ _ _ hn
    have hwinid : (createNotificationWindow n P).nid = (run P T ops).counter + 1 := by
      simp [createNotificationWindow, Window.nid, hnid]
    rw [notifyOp_fst_some P T (run P T ops) a r ic s b acts et n hn]
    refine ⟨?_, ?_, ?_, fun hPT ops2 => pos_run P T hPT ops2⟩
    · rw [← Bool.not_eq_true]
      intro hl
      rcases (live_iff _ _).1 hl with ⟨v, hv, he⟩
      have hv' : v ∈ (restack P T (run P T ops).nots).1
          ++ [createNotificationWindow n P] := hv
      rcases List.mem_append.1 hv' with hvm | hvm
      · exact restack_not_live P T (run P T ops).nots w h.nodup hw hnk v hvm he
      · rw [List.mem_singleton.1 hvm] at he
        rw [hwinid] at he
        have := h.idLe w hw
        omega
    · show closedCount w.nid
        ((run P T ops).trace ++ (restack P T (run P T ops).nots).2) = 1
      rw [closedCount_append, h.liveZero w hw,
        restack_count_one P T (run P T ops).nots w h.nodup hw hnk]
    · show Item.sig (Event.notificationClosed w.nid reasonExpired)
        ∈ (run P T ops).trace ++ (restack P T (run P T ops).nots).2
      exact List.mem_append_right _ (restack_event_mem P T _ w hw hnk)

theorem C4_offscreen_forced_close_witness :
    (sampleWindow1Pushed ∈ (run 10 150 [sampleNotify, sampleNotify]).nots
      ∧ 150 ≤ (pushW 10 sampleWindow1Pushed).screen_pos
      ∧ (notifyOp 10 150 (run 10 150 [sampleNotify, sampleNotify])
          "app" 0 "" "t" "b" [] 5000).2 = some 3)
    ∧ (live (notifyOp 10 150 (run 10 150 [sampleNotify, sampleNotify])
          "app" 0 "" "t" "b" [] 5000).1 sampleWindow1Pushed.nid = false
      ∧ closedCount sampleWindow1Pushed.nid
          (notifyOp 10 150 (run 10 150 [sampleNotify, sampleNotify])
            "app" 0 "" "t" "b" [] 5000).1.trace = 1
      ∧ Item.sig (Event.notificationClosed sampleWindow1Pushed.nid reasonExpired)
          ∈ (notifyOp 10 150 (run 10 150 [sampleNotify, sampleNotify])
              "app" 0 "" "t" "b" [] 5000).1.trace
      ∧ (10 < 150 → ∀ ops2, ∀ v ∈ (run 10 150 ops2).nots, v.screen_pos < 150)) :=
  ⟨⟨by decide, by decide, by decide⟩,
    C4_offscreen_forced_close 10 150 [sampleNotify, sampleNotify]
      "app" 0 "" "t" "b" [] 5000 sampleWindow1Pushed (by decide) (by decide) 3
      (by decide)⟩

/-- Claim C6: `_on_action_invoked` on an absent id is a complete no-op
emitting nothing; on a live id it runs the action router — whose external
attempts may fail at any point, modelled by the number `cut` of completed
calls before an exception is swallowed — then emits exactly one
`ActionInvoked(id, key)` followed by exactly one
`NotificationClosed(id, dismissed)`, removing the record; the emitted signal
sequence and the resulting table are identical for every failure point. -/
theorem C6_action_invoked_contract (P T id cut cut2 : Nat) (k : String)
    (ops : List Op) :
    (live (run P T ops) id = false →
      onActionInvoked (run P T ops) id k cut = run P T ops)
    ∧ (live (run P T ops) id = true →
        (∃ fs : List Effect,
          (onActionInvoked (run P T ops) id k cut).trace
            = (run P T ops).trace ++ fs.map Item.ext
              ++ [Item.sig (Event.actionInvoked id k)]
              ++ [Item.sig (Event.notificationClosed id reasonDismissed)])
        ∧ sigsOf (onActionInvoked (run P T ops) id k cut).trace
            = sigsOf (run P T ops).trace
              ++ [Event.actionInvoked id k,
                  Event.notificationClosed id reasonDismissed]
        ∧ live (onActionInvoked (run P T ops) id k cut) id = false
        ∧ closedCount id (onActionInvoked (run P T ops) id k cut).trace = 1
        ∧ sigsOf (onActionInvoked (run P T ops) id k cut).trace
            = sigsOf (onActionInvoked (run P T ops) id k cut2).trace
        ∧ (onActionInvoked (run P T ops) id k cut).nots
            = (onActionInvoked (run P T ops) id k cut2).nots) := by
  constructor
  · intro hl
    exact onActionInvoked_eq_none _ id k cut (find?_none_of_dead _ id hl)
  · intro hl
    have h := inv_run P T ops
    rcases find?_of_live _ id hl with ⟨w0, hf⟩
    have hw0id : w0.nid = id := by simpa using List.find?_some hf
    have hw0 : w0 ∈ (run P T ops).nots := List.mem_of_find?_eq_some hf
    have h0 : closedCount id (run P T ops).trace = 0 := hw0id ▸ h.liveZero w0 hw0
    rw [onActionInvoked_eq_some _ id k cut w0 hf,
        onActionInvoked_eq_some _ id k cut2 w0 hf]
    refine ⟨⟨(routeEffects w0.notification k).take cut, rfl⟩, ?_, ?_, ?_, ?_, rfl⟩
    · show sigsOf ((run P T ops).trace
        ++ ((routeEffects w0.notification k).take cut).map Item.ext
        ++ [Item.sig (Event.actionInvoked id k)]
        ++ [Item.sig (Event.notificationClosed id reasonDismissed)]) = _
      rw [sigsOf_append, sigsOf_append, sigsOf_append, sigsOf_ext,
        sigsOf_sig, sigsOf_sig]
      simp
    · exact live_filter _ id _ rfl
    · show closedCount id ((run P T ops).trace
        ++ ((routeEffects w0.notification k).take cut).map Item.ext
        ++ [Item.sig (Event.actionInvoked id k)]
        ++ [Item.sig (Event.notificationClosed id reasonDismissed)]) = 1
      rw [closedCount_append, closedCount_append, closedCount_append, h0,
        closedCount_ext, closedCount_action_item, closedCount_closed_self]
    · show sigsOf ((run P T ops).trace
        ++ ((routeEffects w0.notification k).take cut).map Item.ext
        ++ [Item.sig (Event.actionInvoked id k)]
        ++ [Item.sig (Event.notificationClosed id reasonDismissed)])
        = sigsOf ((run P T ops).trace
        ++ ((routeEffects w0.notification k).take cut2).map Item.ext
        ++ [Item.sig (Event.actionInvoked id k)]
        ++ [Item.sig (Event.notificationClosed id reasonDismissed)])
      rw [sigsOf_append, sigsOf_append, sigsOf_append, sigsOf_append,
        sigsOf_append, sigsOf_append, sigsOf_ext, sigsOf_ext]

theorem C6_action_invoked_contract_witness :
    (live (run 10 800 [sampleNotify]) 1 = false →
      onActionInvoked (run 10 800 [sampleNotify]) 1 "reply" 5
        = run 10 800 [sampleNotify])
    ∧ (live (run 10 800 [sampleNotify]) 1 = true →
        (∃ fs : List Effect,
          (onActionInvoked (run 10 800 [sampleNotify]) 1 "reply" 5).trace
            = (run 10 800 [sampleNotify]).trace ++ fs.map Item.ext
              ++ [Item.sig (Event.actionInvoked 1 "reply")]
              ++ [Item.sig (Event.notificationClosed 1 reasonDismissed)])
        ∧ sigsOf (onActionInvoked (run 10 800 [sampleNotify]) 1 "reply" 5).trace
            = sigsOf (run 10 800 [sampleNotify]).trace
              ++ [Event.actionInvoked 1 "reply",
                  Event.notificationClosed 1 reasonDismissed]
        ∧ live (onActionInvoked (run 10 800 [sampleNotify]) 1 "reply" 5) 1 = false
        ∧ closedCount 1 (onActionInvoked (run 10 800 [sampleNotify]) 1 "reply" 5).trace = 1
        ∧ sigsOf (onActionInvoked (run 10 800 [sampleNotify]) 1 "reply" 5).trace
            = sigsOf (onActionInvoked (run 10 800 [sampleNotify]) 1 "reply" 0).trace
        ∧ (onActionInvoked (run 10 800 [sampleNotify]) 1 "reply" 5).nots
            = (onActionInvoked (run 10 800 [sampleNotify]) 1 "reply" 0).nots) :=
  C6_action_invoked_contract 10 800 1 5 0 "reply" [sampleNotify]

/-- A discord notification used by the C7 instantiations. -/
def sampleDiscord : NotificationRecord :=
  { id := 1, app_name := "discord", replaces_id := 0, app_icon := "",
    title := "Friend: hi", subtitle := none, body := "hi", actions := [],
    expire_timeout := 5000, replaceable := false }

/-- Claim C7, counterexample.  For a discord notification and the action key
"open" — one of {reply, open, show} — the router only attempts to focus the
window: no Ctrl+K key combination is injected, contradicting the claim that
the injection happens whenever the key is any of {reply, open, show} (the
source injects only for "reply"). -/
theorem C7_counterexample :
    routeEffects sampleDiscord "open" = [Effect.focusApp "discord"]
    ∧ Effect.sendKeys ["CTRL", "K"] ∉ routeEffects sampleDiscord "open" := by
  decide

/-- Claim C7, amended: for the chat apps {discord, element, telegram,
whatsapp, signal} the router always attempts to focus the application's
window first; the chat name, when derived, prefers a nonempty subtitle
(stripped) and otherwise takes the stripped portion of the title before the
first colon; but the key injection — Ctrl+K for discord, Ctrl+F for
telegram/whatsapp — happens only when the action key is exactly "reply",
never for "open" or "show" (and never for element or signal). -/
theorem C7_chat_app_routing (n : NotificationRecord) (k sub : String)
    (happ : (["discord", "element", "telegram", "whatsapp", "signal"].contains
      (pyLower n.app_name)) = true) :
    (∃ rest, routeEffects n k = Effect.focusApp (pyLower n.app_name) :: rest)
    ∧ (pyLower n.app_name = "discord" → k = "reply" →
        Effect.sendKeys ["CTRL", "K"] ∈ routeEffects n k)
    ∧ ((pyLower n.app_name = "telegram" ∨ pyLower n.app_name = "whatsapp") →
        k = "reply" → Effect.sendKeys ["CTRL", "F"] ∈ routeEffects n k)
    ∧ ((k == "reply") = false → ∀ ks, Effect.sendKeys ks ∉ routeEffects n k)
    ∧ (n.subtitle = some sub → sub ≠ "" → extractChatInfo n = some (pyStrip sub))
    ∧ ((n.subtitle = none ∨ n.subtitle = some "") → pyIn ":" n.title = true →
        extractChatInfo n = some (pyStrip (String.mk
          (n.title.data.takeWhile (fun c => c != ':'))))) := by
  rw [routeEffects_chat n k happ]
  refine ⟨handleChat_head n k, ?_, ?_, ?_, extractChatInfo_subtitle n sub,
    extractChatInfo_title n⟩
  · intro hd hk
    subst hk
    exact handleChat_discord_reply n hd
  · intro hd hk
    subst hk
    exact handleChat_messaging_reply n hd
  · intro hk ks
    exact chat_branch_no_keys n k hk ks

/-- A telegram notification with a subtitle, for the C7 instantiation. -/
def sampleTelegram : NotificationRecord :=
  { id := 3, app_name := "Telegram", replaces_id := 0, app_icon := "",
    title := "Alice: hello", subtitle := some "Alice", body := "hello",
    actions := ["reply", "Reply"], expire_timeout := 5000, replaceable := false }

theorem C7_chat_app_routing_witness :
    (["discord", "element", "telegram", "whatsapp", "signal"].contains
      (pyLower sampleTelegram.app_name)) = true
    ∧ ((∃ rest, routeEffects sampleTelegram "reply"
          = Effect.focusApp (pyLower sampleTelegram.app_name) :: rest)
      ∧ (pyLower sampleTelegram.app_name = "discord" → "reply" = "reply" →
          Effect.sendKeys ["CTRL", "K"] ∈ routeEffects sampleTelegram "reply")
      ∧ ((pyLower sampleTelegram.app_name = "telegram"
          ∨ pyLower sampleTelegram.app_name = "whatsapp") → "reply" = "reply" →
          Effect.sendKeys ["CTRL", "F"] ∈ routeEffects sampleTelegram "reply")
      ∧ (("reply" == "reply") = false →
          ∀ ks, Effect.sendKeys ks ∉ routeEffects sampleTelegram "reply")
      ∧ (sampleTelegram.subtitle = some "Alice" → "Alice" ≠ "" →
          extractChatInfo sampleTelegram = some (pyStrip "Alice"))
      ∧ ((sampleTelegram.subtitle = none ∨ sampleTelegram.subtitle = some "") →
          pyIn ":" sampleTelegram.title = true →
          extractChatInfo sampleTelegram = some (pyStrip (String.mk
            (sampleTelegram.title.data.takeWhile (fun c => c != ':')))))) :=
  ⟨by decide, C7_chat_app_routing sampleTelegram "reply" "Alice" (by decide)⟩

end NotifDaemon
